import Mathlib

/-!
# Verification development for dorado

Shallow embedding of

* `src/dorado/utils/stitch.cpp` (`stitch_chunks`),
* `src/dorado/utils/paf_utils.cpp` (`parse_paf`, `serialize_paf`, `paf_aux_get`),
* `src/dorado/poly_tail/rna_poly_tail_calculator.cpp`
  (`determine_signal_anchor_and_strand`, `signal_range`, `signal_length_adjustment`,
  `average_samples_per_base`),
* `src/dorado/read_pipeline/ProgressTracker.cpp` (`update_progress_bar`),
* `src/dorado/read_pipeline/WriterNode.cpp` (`worker_thread`),
* `src/dorado/alignment/alignment_processing_items.cpp` (`add_all_valid_files`),
* `src/dorado/basecall/ModelRunner.h` (the chunk size of the constructor),
* the barcode classifier that `src/tests/BarcodeClassifierTest.cpp` exercises, modelled from
  the spec because its code is not under `src/`,

followed by theorems about them.

Conventions.  C++ `int` values are `Int`; the widths of the fields that live in
headers outside `src/` are not known, so arithmetic on them is unbounded; where
the source declares the type (`signal_range`, the casts of
`update_progress_bar`) a value outside the type is undefined behaviour.  A C++
operation with undefined behaviour (out-of-range iterator or index, division
by zero) or one that throws (`std::string::substr` past the end) makes the
embedded function return `none`.  `std::string` is `List Char`,
`std::vector<uint8_t>` is `List Nat`, a `std::filesystem::path` is the text of
the path with `/` as separator.  A finite `float` is a rational number;
the rounding of a real number to a `float` is a parameter (`to_float`), so the
theorems hold for every rounding, the exact arithmetic `id` included.
Functions of the repository that are called but not under `src/`
(`utils::div_round_closest` for a divisor that is not zero, `utils::moves_to_map`,
`utils::quantiles`,
`utils::mean_qscore_from_qstring`, `Read::extract_sam_lines`), the library
calls `edlibAlign` and `std::exp`, and the answers of the file system and of
htslib (`is_valid_input_file`, the directory entries) are parameters of the
functions that call them.
-/

namespace dorado

/-! ## Chunk stitching (`src/dorado/utils/stitch.cpp`) -/

/-- The fields of a called chunk that `stitch_chunks` reads. -/
structure Chunk where
  input_offset : Int
  raw_chunk_size : Int
  seq : List Char
  qstring : List Char
  moves : List Nat
  deriving DecidableEq

/-- The fields of a read that `stitch_chunks` reads or writes. -/
structure Read where
  num_chunks : Nat
  called_chunks : List Chunk
  seq : List Char
  qstring : List Char
  moves : List Nat
  deriving DecidableEq

/-- Modelled from the spec: `utils::div_round_closest` of `math_utils.h`, which
is not under `src/`.  The call site documents it as "Calculate the chunk down
sampling, round to closest int", the spec as `raw_chunk_size / moves.size()`:
the quotient of `n` by `d` rounded to the closest integer.  `stitch_chunks`
below takes the helper as a parameter; this definition is one instance of it.
(Where `d = 0` the C++ quotient is undefined; `Int.tdiv` gives `0`.) -/
def div_round_closest (n d : Int) : Int :=
  if decide (n < 0) != decide (d < 0) then Int.tdiv (n - Int.tdiv d 2) d
  else Int.tdiv (n + Int.tdiv d 2) d

/-- `s.substr(pos, count)` with `int` arguments converted to `size_t`: throws
when `pos` is past the end; a negative `count` converts to a huge value and so
takes the rest of the string. -/
def substr (s : List Char) (pos count : Int) : Option (List Char) :=
  if pos < 0 ∨ (s.length : Int) < pos then none
  else if count < 0 then some (s.drop pos.toNat)
  else some ((s.drop pos.toNat).take count.toNat)

/-- `s.substr(pos)`. -/
def substr_from (s : List Char) (pos : Int) : Option (List Char) :=
  if pos < 0 ∨ (s.length : Int) < pos then none
  else some (s.drop pos.toNat)

/-- `std::accumulate(std::prev(v.end(), n), v.end(), 0)`: the sum of the last
`n` entries; the iterator is out of range unless `0 ≤ n ≤ v.size()`. -/
def accumulate_tail (v : List Nat) (n : Int) : Option Int :=
  if n < 0 ∨ (v.length : Int) < n then none
  else some (((v.drop (v.length - n.toNat)).sum : Nat) : Int)

/-- The range `[std::next(v.begin(), f), std::prev(v.end(), r))` handed to
`moves.insert`; it is a valid range only when `0 ≤ f`, `0 ≤ r` and
`f + r ≤ v.size()`. -/
def moves_range (v : List Nat) (f r : Int) : Option (List Nat) :=
  if f < 0 ∨ r < 0 ∨ (v.length : Int) < f + r then none
  else some ((v.take (v.length - r.toNat)).drop f.toNat)

/-- The loop `for (int i = 0; i < n; i++) start_pos += (int)v[i];` started at
`start_pos = 0`: no iteration when `n ≤ 0`, an out-of-range index when
`n > v.size()`. -/
def sum_front (v : List Nat) (n : Int) : Option Int :=
  if n ≤ 0 then some 0
  else if (v.length : Int) < n then none
  else some (((v.take n.toNat).sum : Nat) : Int)

/-- The local variables of `stitch_chunks` that live across loop iterations. -/
structure StitchState where
  start_pos : Int
  mid_point_front : Int
  moves : List Nat
  sequences : List (List Char)
  qstrings : List (List Char)
  deriving DecidableEq

/-- One iteration of the `for` loop of `stitch_chunks` (lines 15-39). -/
def stitch_iter (down_sampling : Int) (current_chunk next_chunk : Chunk)
    (st : StitchState) : Option StitchState :=
  let overlap_size : Int :=
    (current_chunk.raw_chunk_size + current_chunk.input_offset) - next_chunk.input_offset
  if down_sampling = 0 then none
  else
    let overlap_down_sampled : Int := Int.tdiv overlap_size down_sampling
    let mid_point_rear : Int := Int.tdiv overlap_down_sampled 2
    match accumulate_tail current_chunk.moves mid_point_rear with
    | none => none
    | some current_chunk_bases_to_trim =>
      let current_chunk_seq_len : Int := current_chunk.seq.length
      let end_pos : Int := current_chunk_seq_len - current_chunk_bases_to_trim
      let trimmed_len : Int := end_pos - st.start_pos
      match substr current_chunk.seq st.start_pos trimmed_len,
            substr current_chunk.qstring st.start_pos trimmed_len,
            moves_range current_chunk.moves st.mid_point_front mid_point_rear with
      | some s, some q, some m =>
        let mid_point_front : Int := overlap_down_sampled - mid_point_rear
        match sum_front next_chunk.moves mid_point_front with
        | none => none
        | some start_pos =>
          some { start_pos := start_pos
                 mid_point_front := mid_point_front
                 moves := st.moves ++ m
                 sequences := st.sequences ++ [s]
                 qstrings := st.qstrings ++ [q] }
      | _, _, _ => none

/-- The `for (int i = 0; i < read->num_chunks - 1; i++)` loop: `todo` is the
number of iterations still to run and `i` the loop counter. -/
def stitch_loop (down_sampling : Int) (called_chunks : List Chunk) :
    Nat → Nat → StitchState → Option StitchState
  | 0, _, st => some st
  | todo + 1, i, st =>
    match called_chunks[i]?, called_chunks[i + 1]? with
    | some current_chunk, some next_chunk =>
      match stitch_iter down_sampling current_chunk next_chunk st with
      | none => none
      | some st1 => stitch_loop down_sampling called_chunks todo (i + 1) st1
    | _, _ => none

/-- `std::accumulate(v.begin(), v.end(), std::string(""))`. -/
def accumulate_strings (v : List (List Char)) : List Char :=
  v.foldl (fun acc s => acc ++ s) []

/-- Lines 43-47 of `stitch_chunks`, "append the final chunk". -/
def stitch_last (st : StitchState) (last_chunk : Chunk) : Option StitchState :=
  match substr_from last_chunk.seq st.start_pos,
        substr_from last_chunk.qstring st.start_pos,
        moves_range last_chunk.moves st.mid_point_front 0 with
  | some s, some q, some m =>
    some { st with
           moves := st.moves ++ m
           sequences := st.sequences ++ [s]
           qstrings := st.qstrings ++ [q] }
  | _, _, _ => none

/-- The values of the locals of `stitch_chunks` on entry to the loop. -/
def stitch_init : StitchState :=
  { start_pos := 0, mid_point_front := 0, moves := [], sequences := [], qstrings := [] }

/-- The function `stitch_chunks` of `stitch.cpp`.  `none` stands for undefined
behaviour or a thrown exception.  The helper `utils::div_round_closest` is not
under `src/`: it divides its first argument by its second (the spec writes the
call of line 6 as `raw_chunk_size / moves.size()`), so with an empty first move
table line 6 divides by zero; for a divisor that is not zero the helper is a
parameter here.  With `num_chunks = 0` the access `called_chunks[num_chunks - 1]`
is out of range whatever the integer type of `num_chunks`. -/
def stitch_chunks (div_round_closest : Int → Int → Int) (read : Read) : Option Read :=
  match read.called_chunks[0]? with
  | none => none
  | some first =>
    if first.moves.length = 0 then none
    else
      let down_sampling : Int := div_round_closest first.raw_chunk_size first.moves.length
      if read.num_chunks = 0 then none
      else
        match stitch_loop down_sampling read.called_chunks (read.num_chunks - 1) 0
            stitch_init with
        | none => none
        | some st =>
          match read.called_chunks[read.num_chunks - 1]? with
          | none => none
          | some last_chunk =>
            match stitch_last st last_chunk with
            | none => none
            | some fin =>
              some { read with
                     seq := accumulate_strings fin.sequences
                     qstring := accumulate_strings fin.qstrings
                     moves := fin.moves }

/-- A chunk of six move entries announcing four bases, 600 samples long. -/
def example_chunk (input_offset : Int) : Chunk :=
  { input_offset := input_offset
    raw_chunk_size := 600
    seq := ['A', 'C', 'G', 'T']
    qstring := ['!', '#', '$', '%']
    moves := [1, 0, 1, 1, 0, 1] }

/-- A read with a single called chunk. -/
def example_single_read : Read :=
  { num_chunks := 1
    called_chunks := [example_chunk 0]
    seq := []
    qstring := []
    moves := [] }

/-- A chunk whose move table is empty: no decode step, no base. -/
def empty_moves_chunk : Chunk :=
  { input_offset := 0, raw_chunk_size := 600, seq := [], qstring := [], moves := [] }

/-- A read whose single called chunk has an empty move table. -/
def empty_moves_read : Read :=
  { num_chunks := 1
    called_chunks := [empty_moves_chunk]
    seq := []
    qstring := []
    moves := [] }

/-- Modelled from the spec: the record `PafEntry` of `paf_utils.h`, which is not
under `src/`: "12 fixed tab-delimited fields (query name, length, start, end,
strand, target name, length, start, end, match count, block length, mapping
quality) followed by a free-form tag string".  Names and tags are strings, the
strand is a character, the other fields are `int`. -/
structure PafEntry where
  qname : List Char
  qlen : Int
  qstart : Int
  qend : Int
  strand : Char
  tname : List Char
  tlen : Int
  tstart : Int
  tend : Int
  num_residue_matches : Int
  alignment_block_length : Int
  mapq : Int
  aux : List Char
  deriving DecidableEq

/-- The least value of a C++ `int`. -/
def INT_MIN : Int := -2147483648

/-- The greatest value of a C++ `int`. -/
def INT_MAX : Int := 2147483647

/-- `std::isspace` in the "C" locale. -/
def isspace (c : Char) : Bool :=
  c == ' ' || c == '\t' || c == '\n' || c == Char.ofNat 11 || c == Char.ofNat 12 || c == '\r'

/-- An input string stream: the characters not yet read and the two state bits
that the extractions of `parse_paf` can set. -/
structure IStream where
  buf : List Char
  eofbit : Bool
  failbit : Bool
  deriving DecidableEq

/-- `ss.good()`. -/
def IStream.good (ss : IStream) : Bool := !ss.eofbit && !ss.failbit

/-- `std::stringstream ss(paf_row)`. -/
def IStream.ofString (s : List Char) : IStream := { buf := s, eofbit := false, failbit := false }

/-- The sentry of a formatted extraction (`skipws` is on): a stream that is not
good fails; otherwise leading white space is skipped, and reaching the end
while skipping sets `eofbit` and `failbit`.  The flag tells whether the
extraction may proceed. -/
def sentry (ss : IStream) : IStream × Bool :=
  if !ss.good then ({ ss with failbit := true }, false)
  else
    match ss.buf.dropWhile isspace with
    | [] => ({ buf := [], eofbit := true, failbit := true }, false)
    | c :: rest => ({ ss with buf := c :: rest }, true)

/-- `ss >> str` for a `std::string`: the characters up to the next white space.
`cur` is the value of the variable before the extraction; it is kept when the
sentry fails. -/
def extract_string (ss : IStream) (cur : List Char) : IStream × List Char :=
  match sentry ss with
  | (ss1, false) => (ss1, cur)
  | (ss1, true) =>
    let word := ss1.buf.takeWhile (fun c => !isspace c)
    let rest := ss1.buf.dropWhile (fun c => !isspace c)
    ({ buf := rest, eofbit := rest.isEmpty, failbit := word.isEmpty }, word)

/-- `ss >> ch` for a `char`: the next character that is not white space. -/
def extract_char (ss : IStream) (cur : Char) : IStream × Char :=
  match sentry ss with
  | (ss1, false) => (ss1, cur)
  | (ss1, true) =>
    match ss1.buf with
    | [] => ({ ss1 with eofbit := true, failbit := true }, cur)
    | c :: rest => ({ ss1 with buf := rest }, c)

/-- The value of a run of decimal digits. -/
def digits_value (ds : List Char) : Nat :=
  ds.foldl (fun acc c => acc * 10 + (c.toNat - 48)) 0

/-- `ss >> n` for an `int`: an optional sign and a run of decimal digits.  No
digit stores `0` and sets `failbit`; a value outside the range of `int` stores
the nearest bound and sets `failbit`; reading up to the end sets `eofbit`. -/
def extract_int (ss : IStream) (cur : Int) : IStream × Int :=
  match sentry ss with
  | (ss1, false) => (ss1, cur)
  | (ss1, true) =>
    let negative : Bool := ss1.buf.head? == some '-'
    let body : List Char :=
      if negative || ss1.buf.head? == some '+' then ss1.buf.tail else ss1.buf
    let ds := body.takeWhile Char.isDigit
    let rest := body.dropWhile Char.isDigit
    if ds.isEmpty then ({ buf := rest, eofbit := rest.isEmpty, failbit := true }, 0)
    else
      let v : Int := if negative then -(digits_value ds : Int) else (digits_value ds : Int)
      if v < INT_MIN then ({ buf := rest, eofbit := rest.isEmpty, failbit := true }, INT_MIN)
      else if INT_MAX < v then
        ({ buf := rest, eofbit := rest.isEmpty, failbit := true }, INT_MAX)
      else ({ buf := rest, eofbit := rest.isEmpty, failbit := false }, v)

/-- `std::getline(ss, str)`: a stream that is not good fails and leaves `str`
alone; otherwise the characters up to the next newline, which is consumed, or
up to the end, which sets `eofbit`; extracting nothing sets `failbit`. -/
def getline (ss : IStream) (cur : List Char) : IStream × List Char :=
  if !ss.good then ({ ss with failbit := true }, cur)
  else
    let line := ss.buf.takeWhile (fun c => c != '\n')
    match ss.buf.dropWhile (fun c => c != '\n') with
    | [] => ({ buf := [], eofbit := true, failbit := line.isEmpty }, line)
    | _ :: rest => ({ buf := rest, eofbit := false, failbit := false }, line)

/-- Lines 21-24, "Remove the leading tab from aux if it exists": the tag string
that `parse_paf` keeps of the line that `std::getline` returned. -/
def strip_tab (line : List Char) : List Char :=
  match line with
  | '\t' :: t => t
  | a => a

/-- The function `parse_paf(std::stringstream&)`.  `entry` is the
default-constructed `PafEntry entry;` of line 12, whose member initialisers are
in `paf_utils.h`. -/
def parse_paf_stream (entry : PafEntry) (ss : IStream) : PafEntry :=
  let r1 := extract_string ss entry.qname
  let r2 := extract_int r1.1 entry.qlen
  let r3 := extract_int r2.1 entry.qstart
  let r4 := extract_int r3.1 entry.qend
  let r5 := extract_char r4.1 entry.strand
  let r6 := extract_string r5.1 entry.tname
  let r7 := extract_int r6.1 entry.tlen
  let r8 := extract_int r7.1 entry.tstart
  let r9 := extract_int r8.1 entry.tend
  let r10 := extract_int r9.1 entry.num_residue_matches
  let r11 := extract_int r10.1 entry.alignment_block_length
  let r12 := extract_int r11.1 entry.mapq
  -- The rest of the line is auxiliary data
  let r13 := getline r12.1 entry.aux
  -- Remove the leading tab from aux if it exists
  let aux : List Char := strip_tab r13.2
  { qname := r1.2, qlen := r2.2, qstart := r3.2, qend := r4.2, strand := r5.2, tname := r6.2,
    tlen := r7.2, tstart := r8.2, tend := r9.2, num_residue_matches := r10.2,
    alignment_block_length := r11.2, mapq := r12.2, aux := aux }

/-- The function `parse_paf(const std::string&)`. -/
def parse_paf (entry : PafEntry) (paf_row : List Char) : PafEntry :=
  parse_paf_stream entry (IStream.ofString paf_row)

/-- The character of a decimal digit. -/
def digit_char (d : Nat) : Char := Char.ofNat (48 + d)

/-- The decimal digits of `n`, least significant first; `fuel` bounds the
number of digits. -/
def digits_rev : Nat → Nat → List Nat
  | 0, n => [n % 10]
  | fuel + 1, n => if n < 10 then [n] else (n % 10) :: digits_rev fuel (n / 10)

/-- The decimal representation of a natural number. -/
def print_nat (n : Nat) : List Char := ((digits_rev n n).reverse).map digit_char

/-- `oss << n` for an `int`: the decimal representation, with a minus sign for
a negative value. -/
def print_int (n : Int) : List Char :=
  if n < 0 then '-' :: print_nat n.natAbs else print_nat n.natAbs

/-- `oss << s` for a `std::string`. -/
def put_string (oss : List Char) (s : List Char) : List Char := oss ++ s

/-- `oss << c` for a `char`. -/
def put_char (oss : List Char) (c : Char) : List Char := oss ++ [c]

/-- `oss << n` for an `int`. -/
def put_int (oss : List Char) (n : Int) : List Char := oss ++ print_int n

/-- The function `serialize_paf`: the insertions of lines 36-39 in order. -/
def serialize_paf (entry : PafEntry) : List Char :=
  let oss : List Char := []
  let oss := put_char (put_string oss entry.qname) '\t'
  let oss := put_char (put_int oss entry.qlen) '\t'
  let oss := put_char (put_int oss entry.qstart) '\t'
  let oss := put_char (put_int oss entry.qend) '\t'
  let oss := put_char (put_char oss entry.strand) '\t'
  let oss := put_char (put_string oss entry.tname) '\t'
  let oss := put_char (put_int oss entry.tlen) '\t'
  let oss := put_char (put_int oss entry.tstart) '\t'
  let oss := put_char (put_int oss entry.tend) '\t'
  let oss := put_char (put_int oss entry.num_residue_matches) '\t'
  let oss := put_char (put_int oss entry.alignment_block_length) '\t'
  let oss := put_char (put_int oss entry.mapq) '\t'
  put_string oss entry.aux

/-- Every `int` field of the record is in the range of a C++ `int`. -/
def PafEntry.in_range (e : PafEntry) : Prop :=
  (INT_MIN ≤ e.qlen ∧ e.qlen ≤ INT_MAX) ∧ (INT_MIN ≤ e.qstart ∧ e.qstart ≤ INT_MAX) ∧
  (INT_MIN ≤ e.qend ∧ e.qend ≤ INT_MAX) ∧ (INT_MIN ≤ e.tlen ∧ e.tlen ≤ INT_MAX) ∧
  (INT_MIN ≤ e.tstart ∧ e.tstart ≤ INT_MAX) ∧ (INT_MIN ≤ e.tend ∧ e.tend ≤ INT_MAX) ∧
  (INT_MIN ≤ e.num_residue_matches ∧ e.num_residue_matches ≤ INT_MAX) ∧
  (INT_MIN ≤ e.alignment_block_length ∧ e.alignment_block_length ≤ INT_MAX) ∧
  (INT_MIN ≤ e.mapq ∧ e.mapq ≤ INT_MAX)

/-- The text fields of the record survive a white-space separated line: the two
names are not empty and hold no white space, the strand is not a white-space
character, and the tag string holds no newline. -/
def PafEntry.delimitable (e : PafEntry) : Prop :=
  e.qname ≠ [] ∧ (∀ c ∈ e.qname, isspace c = false) ∧ isspace e.strand = false ∧
  e.tname ≠ [] ∧ (∀ c ∈ e.tname, isspace c = false) ∧ (∀ c ∈ e.aux, c ≠ '\n')

/-- A well-formed record. -/
def example_entry : PafEntry :=
  { qname := ['r', 'e', 'a', 'd', '1'], qlen := 1000, qstart := 0, qend := 990, strand := '+',
    tname := ['c', 'h', 'r', '1'], tlen := 5000, tstart := -1, tend := 1090,
    num_residue_matches := 980, alignment_block_length := 990, mapq := 60,
    aux := ['t', 'p', ':', 'A', ':', 'P', '\t', 'c', 'm', ':', 'i', ':', '5'] }

/-- A record whose tag string holds a newline. -/
def newline_entry : PafEntry := { example_entry with aux := ['a', '\n', 'b'] }

/-- A record whose query name is empty. -/
def nameless_entry : PafEntry := { example_entry with qname := [] }

/-! ## Poly-tail anchoring (`src/dorado/poly_tail/rna_poly_tail_calculator.cpp`) -/

/-- Modelled from the spec: the result record `SignalAnchorInfo`, declared in a
header that is not under `src/`.  The spec names its four components
`{found, signal_anchor, trailing_base_count, strand}`; the source fills them
positionally. -/
structure SignalAnchorInfo where
  found : Bool
  signal_anchor : Int
  trailing_base_count : Int
  strand : Bool
  deriving DecidableEq

/-- The members of `PolyTailConfig` that the calculator reads. -/
structure PolyTailConfig where
  rna_adapter : List Char
  flank_threshold : ℚ
  primer_window : Int
  rna_offset : Int
  deriving DecidableEq

/-- The members of `read.read_common` that the calculator reads;
`raw_data_samples` is the value of `get_raw_data_samples()`. -/
structure SimplexRead where
  seq : List Char
  moves : List Nat
  model_stride : Nat
  raw_data_samples : Nat
  rna_adapter_end_signal_pos : Int
  deriving DecidableEq

/-- The members of `EdlibAlignResult` that the calculator reads. -/
structure EdlibAlignResult where
  editDistance : Int
  startLocations : List Int
  deriving DecidableEq

/-- The calculator: its configuration, the flag `m_rna_adapter` set by the
constructor from `is_rna_adapter`, and the value of the inherited
`max_tail_length()`. -/
structure RNAPolyTailCalculator where
  m_config : PolyTailConfig
  m_rna_adapter : Bool
  max_tail_length : Int
  deriving DecidableEq

/-- The collaborators of the calculator that are not under `src/`:
`edlibAlign` (called with the adapter as query, the trailing window as target
and the configuration of `init_edlib_config_for_adapter`), `utils::moves_to_map`
(move table, stride, signal length, reserved size) and the rounding of a real
number to a `float`. -/
structure Collaborators where
  edlibAlign : List Char → List Char → EdlibAlignResult
  moves_to_map : List Nat → Nat → Nat → Nat → List Int
  to_float : ℚ → ℚ

/-- The value of `1.f - static_cast<float>(editDistance) / rna_adapter.length()`
for an adapter that is not empty. -/
def adapter_score (to_float : ℚ → ℚ) (editDistance : Int) (adapter_length : Nat) : ℚ :=
  to_float (1 - to_float (to_float editDistance / to_float adapter_length))

/-- The test `adapter_score >= threshold` of line 66.  For an adapter of
length 0 the quotient is not a finite number: `0 / 0` is a NaN, which fails
every comparison, a positive numerator gives a score of minus infinity, a
negative one a score of plus infinity. -/
def score_meets (to_float : ℚ → ℚ) (editDistance : Int) (adapter_length : Nat)
    (threshold : ℚ) : Bool :=
  if adapter_length = 0 then decide (editDistance < 0)
  else decide (threshold ≤ adapter_score to_float editDistance adapter_length)

/-- The function `RNAPolyTailCalculator::determine_signal_anchor_and_strand`.
`none` stands for a thrown `std::out_of_range` (`substr`) or an access out of
bounds (`startLocations[0]`, `seq_to_sig_map[...]`).  The index
`seq_view.length() - base_anchor` is computed in `size_t`: a negative
difference wraps around to a value beyond every vector. -/
def determine_signal_anchor_and_strand (ext : Collaborators) (calculator : RNAPolyTailCalculator)
    (read : SimplexRead) : Option SignalAnchorInfo :=
  if !calculator.m_rna_adapter then
    some { found := false, signal_anchor := read.rna_adapter_end_signal_pos,
           trailing_base_count := 0, strand := false }
  else
    let rna_adapter := calculator.m_config.rna_adapter
    let threshold := calculator.m_config.flank_threshold
    let window := calculator.m_config.primer_window
    let trailing_Ts : Int := 0
    let seq_view := read.seq
    let bottom_start : Int := max 0 ((seq_view.length : Int) - window)
    match substr seq_view bottom_start window with
    | none => none
    | some read_bottom =>
      let align_result := ext.edlibAlign rna_adapter read_bottom
      if score_meets ext.to_float align_result.editDistance rna_adapter.length threshold then
        let stride := read.model_stride
        let seq_to_sig_map :=
          ext.moves_to_map read.moves stride read.raw_data_samples (read.seq.length + 1)
        match align_result.startLocations[0]? with
        | none => none
        | some loc0 =>
          let base_anchor : Int := bottom_start + loc0 - calculator.m_config.rna_offset
          -- RNA sequence is reversed wrt the signal and move table
          let index : Int := (seq_view.length : Int) - base_anchor
          if index < 0 then none
          else
            match seq_to_sig_map[index.toNat]? with
            | none => none
            | some signal_anchor =>
              some { found := false, signal_anchor := signal_anchor,
                     trailing_base_count := trailing_Ts, strand := false }
      else
        some { found := false, signal_anchor := -1, trailing_base_count := trailing_Ts,
               strand := false }

/-- `std::round`: to the nearest integer, halfway cases away from zero. -/
def round_half_away (x : ℚ) : Int :=
  if 0 ≤ x then ⌊x + 1 / 2⌋ else -⌊-x + 1 / 2⌋

/-- The conversion `int(std::round(x))`: a rounded value that is not an `int`
is undefined behaviour (`none`); so is the conversion of a `float` that is not
finite, which stands here for any value beyond `int`. -/
def round_to_int (x : ℚ) : Option Int :=
  if INT_MIN ≤ round_half_away x ∧ round_half_away x ≤ INT_MAX then some (round_half_away x)
  else none

/-- The sum `a + b` of two `int` values: a signed overflow is undefined
behaviour (`none`). -/
def int_add (a b : Int) : Option Int :=
  if INT_MIN ≤ a + b ∧ a + b ≤ INT_MAX then some (a + b) else none

/-- The function `RNAPolyTailCalculator::signal_range`, in `int` arithmetic as
the source declares it: `signal_anchor` and `signal_len` are `int` values, and
`none` stands for the undefined behaviour of `int(std::round(.))`, of
`signal_anchor - 50` or of `signal_anchor + kSpread` outside `int`. -/
def signal_range (to_float : ℚ → ℚ) (calculator : RNAPolyTailCalculator)
    (signal_anchor signal_len : Int) (samples_per_base : ℚ) : Option (Int × Int) :=
  match round_to_int (to_float (samples_per_base * to_float calculator.max_tail_length)) with
  | none => none
  | some kSpread =>
    match int_add signal_anchor (-50), int_add signal_anchor kSpread with
    | some low, some high => some (max 0 low, min signal_len high)
    | _, _ => none

/-- Lines 50-57: the alignment of the adapter against the trailing window of
the sequence; `none` when `substr` throws. -/
def adapter_alignment (ext : Collaborators) (calculator : RNAPolyTailCalculator)
    (read : SimplexRead) : Option EdlibAlignResult :=
  match substr read.seq (max 0 ((read.seq.length : Int) - calculator.m_config.primer_window))
      calculator.m_config.primer_window with
  | none => none
  | some read_bottom => some (ext.edlibAlign calculator.m_config.rna_adapter read_bottom)

/-- The adapter alignment of the read is accepted: the test of line 66 holds. -/
def accepted (ext : Collaborators) (calculator : RNAPolyTailCalculator)
    (read : SimplexRead) : Bool :=
  match adapter_alignment ext calculator read with
  | none => false
  | some r =>
    score_meets ext.to_float r.editDistance calculator.m_config.rna_adapter.length
      calculator.m_config.flank_threshold

/-- The result "not found". -/
def not_found : SignalAnchorInfo :=
  { found := false, signal_anchor := -1, trailing_base_count := 0, strand := false }

/-- The sequence-to-signal map that line 68 builds for a read. -/
def seq_to_sig_map (ext : Collaborators) (read : SimplexRead) : List Int :=
  ext.moves_to_map read.moves read.model_stride read.raw_data_samples (read.seq.length + 1)

/-- The `base_anchor` of line 72 for a first start location `loc0`. -/
def base_anchor (calculator : RNAPolyTailCalculator) (read : SimplexRead) (loc0 : Int) : Int :=
  max 0 ((read.seq.length : Int) - calculator.m_config.primer_window) + loc0
    - calculator.m_config.rna_offset

/-- A calculator in adapter mode: adapter `ACGT`, threshold 0.9, a window of
six bases, offset 1. -/
def example_calculator : RNAPolyTailCalculator :=
  { m_config := { rna_adapter := ['A', 'C', 'G', 'T'], flank_threshold := 9 / 10,
                  primer_window := 6, rna_offset := 1 }
    m_rna_adapter := true
    max_tail_length := 750 }

/-- A read of ten bases that ends with the adapter `ACGT`. -/
def example_simplex_read : SimplexRead :=
  { seq := ['T', 'T', 'T', 'T', 'T', 'T', 'A', 'C', 'G', 'T']
    moves := [1, 0, 1, 1, 1, 1, 1, 1, 0, 1, 1, 1]
    model_stride := 5
    raw_data_samples := 60
    rna_adapter_end_signal_pos := 17 }

/-- The signal position of every base followed by the signal length. -/
def example_map : List Int := [0, 10, 15, 20, 25, 30, 35, 45, 50, 55, 60]

/-- Collaborators for the example read: the aligner reports the exact match of
the adapter at offset 2 of the window `TTACGT`, or a distance of `distance` when
told to; `float` arithmetic is exact. -/
def example_collaborators (distance : Int) : Collaborators :=
  { edlibAlign := fun _ _ => { editDistance := distance, startLocations := [2] }
    moves_to_map := fun _ _ _ _ => example_map
    to_float := id }

/-- The `kSpread` of `signal_range`. -/
def spread (to_float : ℚ → ℚ) (calculator : RNAPolyTailCalculator) (samples_per_base : ℚ) :
    Int :=
  round_half_away (to_float (samples_per_base * to_float calculator.max_tail_length))

/-! ### Vocabulary of the claims about the trims -/

/-- The function `RNAPolyTailCalculator::signal_length_adjustment`.  `expf` is
`std::exp` on `float`: `none` stands for a result that is not a finite number
(an overflow to infinity), which is not less than `100.f`, so that
`std::min(100.f, .)`, which returns its second argument only when that is less
than the first, returns `100.f`. -/
def signal_length_adjustment (to_float : ℚ → ℚ) (expf : ℚ → Option ℚ) (signal_len : Int) :
    Int :=
  let argument : ℚ :=
    to_float (to_float (56838 / 10000) - to_float (to_float (21 / 10000) * to_float signal_len))
  let capped : ℚ :=
    match expf argument with
    | some e => if e < 100 then e else 100
    | none => 100
  round_half_away capped

/-- A rational stand-in for `std::exp` that is never negative. -/
def example_expf (x : ℚ) : Option ℚ := some ((1 + x / 16) ^ 16)

/-- The body of the loop of `average_samples_per_base` for one observation `s`:
`if (s >= quantiles[0] && s <= quantiles[1]) { sum += s; count++; }`.  `none`
stands for an access past the end of `quantiles`. -/
def average_step (to_float : ℚ → ℚ) (quantiles : List ℚ) (acc : ℚ × Int) (s : ℚ) :
    Option (ℚ × Int) :=
  match quantiles[0]? with
  | none => none
  | some q0 =>
    if q0 ≤ s then
      match quantiles[1]? with
      | none => none
      | some q1 => if s ≤ q1 then some (to_float (acc.1 + s), acc.2 + 1) else some acc
    else some acc

/-- The loop `for (auto s : sizes)` of `average_samples_per_base`. -/
def average_loop (to_float : ℚ → ℚ) (quantiles : List ℚ) :
    List ℚ → ℚ × Int → Option (ℚ × Int)
  | [], acc => some acc
  | s :: rest, acc =>
    match average_step to_float quantiles acc s with
    | none => none
    | some acc1 => average_loop to_float quantiles rest acc1

/-- The function `RNAPolyTailCalculator::average_samples_per_base`.  The helper
`utils::quantiles` is not under `src/` and is a parameter. -/
def average_samples_per_base (to_float : ℚ → ℚ) (quantiles : List ℚ → List ℚ → List ℚ)
    (sizes : List ℚ) : Option ℚ :=
  let qs := quantiles sizes [to_float (1 / 10), to_float (9 / 10)]
  match average_loop to_float qs sizes (0, 0) with
  | none => none
  | some (sum, count) => some (if 0 < count then to_float (sum / to_float count) else 0)

/-- The observations that lie between the two quantiles. -/
def central (q10 q90 : ℚ) (sizes : List ℚ) : List ℚ :=
  sizes.filter (fun s => decide (q10 ≤ s ∧ s ≤ q90))

/-- The sum of a list accumulated from the left in `float` arithmetic. -/
def float_sum (to_float : ℚ → ℚ) (v : List ℚ) : ℚ :=
  v.foldl (fun acc s => to_float (acc + s)) 0

/-- Rounding to the nearest integer, halfway cases to the even one. -/
def round_half_even (x : ℚ) : Int :=
  if x - ⌊x⌋ < 1 / 2 then ⌊x⌋
  else if 1 / 2 < x - ⌊x⌋ then ⌊x⌋ + 1
  else if ⌊x⌋ % 2 = 0 then ⌊x⌋ else ⌊x⌋ + 1

/-- The rounding of a real number to an IEEE 754 binary32 `float` (24
significant bits, round to nearest, ties to even), for a number in the normal
range: overflow and subnormal numbers are not modelled. -/
def to_binary32 (x : ℚ) : ℚ :=
  if x = 0 then 0
  else round_half_even (x / 2 ^ (Int.log 2 |x| - 23)) * 2 ^ (Int.log 2 |x| - 23)

/-- The `float` next above 1 but one: `1 + 2^-22`. -/
def above_one : ℚ := 4194305 / 4194304

/-! ## Progress tracking (`src/dorado/read_pipeline/ProgressTracker.cpp`) -/

/-- A snapshot `stats::NamedStats`: named `double` values. -/
abbrev NamedStats := List (String × ℚ)

/-- The lambda `fetch_stat` of `update_progress_bar` (lines 110-116). -/
def fetch_stat (stats : NamedStats) (name : String) : ℚ :=
  match stats.lookup name with
  | some v => v
  | none => 0

/-- The integral part of a number: rounding toward zero. -/
def truncate (x : ℚ) : Int := if 0 ≤ x then ⌊x⌋ else ⌈x⌉

/-- The least value of an `int64_t`. -/
def INT64_MIN : Int := -9223372036854775808

/-- The greatest value of an `int64_t`. -/
def INT64_MAX : Int := 9223372036854775807

/-- The conversion `int(x)` of a `double`: the fraction is dropped; a value
whose integral part is not an `int` is undefined behaviour (`none`). -/
def to_int (x : ℚ) : Option Int :=
  if INT_MIN ≤ truncate x ∧ truncate x ≤ INT_MAX then some (truncate x) else none

/-- The conversion `int64_t(x)` of a `double`. -/
def to_int64 (x : ℚ) : Option Int :=
  if INT64_MIN ≤ truncate x ∧ truncate x ≤ INT64_MAX then some (truncate x) else none

/-- The members of `ProgressTracker` that `update_progress_bar` reads or
writes, the two debug histograms apart. -/
structure ProgressTracker where
  m_num_reads_expected : Int
  m_duplex : Bool
  m_num_simplex_reads_written : Int
  m_num_simplex_reads_filtered : Int
  m_num_simplex_bases_filtered : Int
  m_num_simplex_bases_processed : Int
  m_num_bases_processed : Int
  m_num_samples_processed : Int
  m_num_samples_incl_padding : Int
  m_num_duplex_bases_processed : Int
  m_num_duplex_reads_written : Int
  m_num_duplex_reads_filtered : Int
  m_num_duplex_bases_filtered : Int
  m_num_barcodes_demuxed : Int
  m_num_poly_a_called : Int
  m_num_poly_a_not_called : Int
  m_avg_poly_a_tail_lengths : Int
  m_last_progress_written : ℚ
  deriving DecidableEq

/-- Lines 127-130 of `update_progress_bar`: the bases of duplex reads, counted
only by a tracker in duplex mode.  The result is the pair of
`m_num_duplex_bases_processed` and `m_num_bases_processed`; the sum of the two
`int64_t` counters must be an `int64_t`. -/
def update_duplex_bases (stats : NamedStats) (t : ProgressTracker)
    (simplex_bases_processed : Int) : Option (Int × Int) :=
  if t.m_duplex then
    match to_int64 (fetch_stat stats "StereoBasecallerNode.bases_processed") with
    | none => none
    | some duplex_bases_processed =>
      if INT64_MIN ≤ simplex_bases_processed + duplex_bases_processed ∧
          simplex_bases_processed + duplex_bases_processed ≤ INT64_MAX then
        some (duplex_bases_processed, simplex_bases_processed + duplex_bases_processed)
      else none
  else some (t.m_num_duplex_bases_processed, simplex_bases_processed)

/-- Lines 118-141 of `update_progress_bar`: the counters derived from named
stats.  `to_double` rounds the sum of two `double` values. -/
def update_counters (to_double : ℚ → ℚ) (stats : NamedStats) (t : ProgressTracker) :
    Option ProgressTracker :=
  match to_int (to_double (fetch_stat stats "HtsWriter.unique_simplex_reads_written"
      + fetch_stat stats "BarcodeDemuxerNode.demuxed_reads_written")) with
  | none => none
  | some simplex_reads_written =>
  match to_int (fetch_stat stats "ReadFilterNode.simplex_reads_filtered") with
  | none => none
  | some simplex_reads_filtered =>
  match to_int (fetch_stat stats "ReadFilterNode.simplex_bases_filtered") with
  | none => none
  | some simplex_bases_filtered =>
  match to_int64 (fetch_stat stats "BasecallerNode.bases_processed") with
  | none => none
  | some simplex_bases_processed =>
  match to_int64 (fetch_stat stats "BasecallerNode.samples_processed") with
  | none => none
  | some samples_processed =>
  match to_int64 (fetch_stat stats "BasecallerNode.samples_incl_padding") with
  | none => none
  | some samples_incl_padding =>
  match update_duplex_bases stats t simplex_bases_processed with
  | none => none
  | some bases =>
  match to_int (fetch_stat stats "HtsWriter.duplex_reads_written") with
  | none => none
  | some duplex_reads_written =>
  match to_int (fetch_stat stats "ReadFilterNode.duplex_reads_filtered") with
  | none => none
  | some duplex_reads_filtered =>
  match to_int (fetch_stat stats "ReadFilterNode.duplex_bases_filtered") with
  | none => none
  | some duplex_bases_filtered =>
  -- Barcode demuxing stats.
  match to_int (fetch_stat stats "BarcodeClassifierNode.num_barcodes_demuxed") with
  | none => none
  | some barcodes_demuxed =>
  -- PolyA tail stats.
  match to_int (fetch_stat stats "PolyACalculator.reads_estimated") with
  | none => none
  | some poly_a_called =>
  match to_int (fetch_stat stats "PolyACalculator.reads_not_estimated") with
  | none => none
  | some poly_a_not_called =>
  match to_int (fetch_stat stats "PolyACalculator.average_tail_length") with
  | none => none
  | some avg_poly_a_tail_lengths =>
    some { t with
           m_num_simplex_reads_written := simplex_reads_written
           m_num_simplex_reads_filtered := simplex_reads_filtered
           m_num_simplex_bases_filtered := simplex_bases_filtered
           m_num_simplex_bases_processed := simplex_bases_processed
           m_num_bases_processed := bases.2
           m_num_samples_processed := samples_processed
           m_num_samples_incl_padding := samples_incl_padding
           m_num_duplex_bases_processed := bases.1
           m_num_duplex_reads_written := duplex_reads_written
           m_num_duplex_reads_filtered := duplex_reads_filtered
           m_num_duplex_bases_filtered := duplex_bases_filtered
           m_num_barcodes_demuxed := barcodes_demuxed
           m_num_poly_a_called := poly_a_called
           m_num_poly_a_not_called := poly_a_not_called
           m_avg_poly_a_tail_lengths := avg_poly_a_tail_lengths }

/-- Lines 151-154 of `update_progress_bar`: the value of
`std::min(100.f, 100.f * static_cast<float>(written + filtered) / expected)`. -/
def progress_value (to_float : ℚ → ℚ) (t : ProgressTracker) : ℚ :=
  if to_float (to_float (100 * to_float
        (t.m_num_simplex_reads_written + t.m_num_simplex_reads_filtered : Int))
      / to_float t.m_num_reads_expected) < 100 then
    to_float (to_float (100 * to_float
        (t.m_num_simplex_reads_written + t.m_num_simplex_reads_filtered : Int))
      / to_float t.m_num_reads_expected)
  else 100

/-- Lines 148-158 of `update_progress_bar`: the progress written when the
expected number of reads is not zero.  The sum of the two `int` counters must
be an `int`. -/
def update_progress (to_float : ℚ → ℚ) (t : ProgressTracker) : Option ProgressTracker :=
  if t.m_num_reads_expected ≠ 0 then
    if INT_MIN ≤ t.m_num_simplex_reads_written + t.m_num_simplex_reads_filtered ∧
        t.m_num_simplex_reads_written + t.m_num_simplex_reads_filtered ≤ INT_MAX then
      if 0 < progress_value to_float t ∧
          t.m_last_progress_written < progress_value to_float t then
        some { t with m_last_progress_written := progress_value to_float t }
      else some t
    else none
  else some t

/-- The function `ProgressTracker::update_progress_bar`, lines 104-162:
`is_fd_tty` is the value of `utils::is_fd_tty(stderr)`.  The text written to
`stderr`, the drawing of the bar and the two debug histograms of lines 164-184,
which touch none of the members above, are left out. -/
def update_progress_bar (to_double to_float : ℚ → ℚ) (is_fd_tty : Bool) (stats : NamedStats)
    (t : ProgressTracker) : Option ProgressTracker :=
  match update_counters to_double stats t with
  | none => none
  | some t1 =>
    -- don't output progress bar if stderr is not a tty
    if !is_fd_tty then some t1 else update_progress to_float t1

/-- A tracker before its first update. -/
def example_tracker : ProgressTracker :=
  { m_num_reads_expected := 10, m_duplex := false, m_num_simplex_reads_written := 0,
    m_num_simplex_reads_filtered := 0, m_num_simplex_bases_filtered := 0,
    m_num_simplex_bases_processed := 0, m_num_bases_processed := 0,
    m_num_samples_processed := 0, m_num_samples_incl_padding := 0,
    m_num_duplex_bases_processed := 0, m_num_duplex_reads_written := 0,
    m_num_duplex_reads_filtered := 0, m_num_duplex_bases_filtered := 0,
    m_num_barcodes_demuxed := 0, m_num_poly_a_called := 0, m_num_poly_a_not_called := 0,
    m_avg_poly_a_tail_lengths := 0, m_last_progress_written := 0 }

/-- A snapshot of a run that wrote four reads, with an average tail length of
53.5. -/
def example_stats : NamedStats :=
  [("HtsWriter.unique_simplex_reads_written", 4), ("PolyACalculator.reads_estimated", 3),
   ("PolyACalculator.average_tail_length", 107 / 2)]

/-- The integral part of `x` is an `int`. -/
def in_int_range (x : ℚ) : Prop := INT_MIN ≤ truncate x ∧ truncate x ≤ INT_MAX

/-! ## Writing reads (`src/dorado/read_pipeline/WriterNode.cpp`) -/

/-- The fields of a `Read` that `WriterNode::worker_thread` uses;
`raw_data_size` is the value of `read->raw_data.size(0)`. -/
structure WriterRead where
  read_id : List Char
  seq : List Char
  qstring : List Char
  raw_data_size : Nat
  deriving DecidableEq

/-- The members of `WriterNode` that the constructor sets and `worker_thread`
only reads. -/
structure WriterConfig where
  m_emit_fastq : Bool
  m_emit_moves : Bool
  m_rna : Bool
  m_duplex : Bool
  m_min_qscore : Nat
  m_isatty : Bool
  m_num_reads_expected : Int
  deriving DecidableEq

/-- The member `progress_bar_increment`, as the constructor computes it (lines
129-133). -/
def progress_bar_increment (cfg : WriterConfig) : Int :=
  if cfg.m_num_reads_expected ≤ 100 then 100 else Int.tdiv cfg.m_num_reads_expected 100

/-- What `worker_thread` changes: the counters of the node, the number of calls
of `m_progress_bar.tick()`, the pieces written to `std::cout`, the read counts
reported on `std::cerr` (an entry `n` stands for the text
`\r> Reads processed: n`) and the messages passed to `spdlog::error`. -/
structure WriterState where
  m_num_bases_processed : Nat
  m_num_samples_processed : Nat
  m_num_reads_processed : Int
  m_num_reads_failed : Int
  progress_ticks : Nat
  cout : List (List Char)
  cerr : List Int
  error_log : List (List Char)
  deriving DecidableEq

/-- The functions that `worker_thread` calls and that are not under `src/`:
`utils::mean_qscore_from_qstring`, and `Read::extract_sam_lines`, which returns
the lines of a read or throws a `std::exception` with a message. -/
structure WriterCollaborators where
  mean_qscore_from_qstring : List Char → ℚ
  extract_sam_lines : WriterRead → Bool → Bool → Except (List Char) (List (List Char))

/-- Lines 59-62: the read as it is after the reversal of an RNA read. -/
def oriented (cfg : WriterConfig) (read : WriterRead) : WriterRead :=
  if cfg.m_rna then { read with seq := read.seq.reverse, qstring := read.qstring.reverse }
  else read

/-- Lines 64-72: the progress report after a read has been counted. -/
def report_progress (cfg : WriterConfig) (st : WriterState) : WriterState :=
  if Int.tmod st.m_num_reads_processed (progress_bar_increment cfg) = 0 ∧ cfg.m_isatty = true ∧
      Int.tdiv st.m_num_reads_processed (progress_bar_increment cfg) < 100 then
    if cfg.m_num_reads_expected ≠ 0 then { st with progress_ticks := st.progress_ticks + 1 }
    else { st with cerr := st.cerr ++ [st.m_num_reads_processed] }
  else st

/-- The body of the loop of `WriterNode::worker_thread` (lines 55-95) for one
read popped from the queue. -/
def write_read (ext : WriterCollaborators) (cfg : WriterConfig) (st : WriterState)
    (read : WriterRead) : WriterState :=
  let counted : WriterState :=
    report_progress cfg
      { st with
        m_num_bases_processed := st.m_num_bases_processed + read.seq.length
        m_num_samples_processed := st.m_num_samples_processed + read.raw_data_size
        m_num_reads_processed := st.m_num_reads_processed + 1 }
  if ext.mean_qscore_from_qstring (oriented cfg read).qstring < cfg.m_min_qscore then
    { counted with m_num_reads_failed := counted.m_num_reads_failed + 1 }
  else if cfg.m_emit_fastq then
    { counted with
      cout := counted.cout ++
        [['@'] ++ read.read_id ++ ['\n'] ++ (oriented cfg read).seq ++ ['\n', '+', '\n']
          ++ (oriented cfg read).qstring ++ ['\n']] }
  else
    match ext.extract_sam_lines (oriented cfg read) cfg.m_emit_moves cfg.m_duplex with
    | Except.ok sam_lines =>
      { counted with cout := counted.cout ++ sam_lines.map (fun sam_line => sam_line ++ ['\n']) }
    | Except.error what => { counted with error_log := counted.error_log ++ [what] }

/-- The function `WriterNode::worker_thread` run by one worker on the reads
that `m_work_queue.try_pop` hands out, in their order. -/
def worker_thread (ext : WriterCollaborators) (cfg : WriterConfig) (st : WriterState)
    (queue : List WriterRead) : WriterState :=
  queue.foldl (write_read ext cfg) st

/-- The pieces that `worker_thread` writes to `std::cout` for one read. -/
def read_output (ext : WriterCollaborators) (cfg : WriterConfig) (read : WriterRead) :
    List (List Char) :=
  if ext.mean_qscore_from_qstring (oriented cfg read).qstring < cfg.m_min_qscore then []
  else if cfg.m_emit_fastq then
    [['@'] ++ read.read_id ++ ['\n'] ++ (oriented cfg read).seq ++ ['\n', '+', '\n']
      ++ (oriented cfg read).qstring ++ ['\n']]
  else
    match ext.extract_sam_lines (oriented cfg read) cfg.m_emit_moves cfg.m_duplex with
    | Except.ok sam_lines => sam_lines.map (fun sam_line => sam_line ++ ['\n'])
    | Except.error _ => []

/-- A writer in SAM mode. -/
def example_writer : WriterConfig :=
  { m_emit_fastq := false, m_emit_moves := false, m_rna := false, m_duplex := false,
    m_min_qscore := 0, m_isatty := false, m_num_reads_expected := 0 }

/-- A writer that has not processed any read. -/
def example_writer_state : WriterState :=
  { m_num_bases_processed := 0, m_num_samples_processed := 0, m_num_reads_processed := 0,
    m_num_reads_failed := 0, progress_ticks := 0, cout := [], cerr := [], error_log := [] }

/-- A read with the given sequence. -/
def example_writer_read (seq : List Char) : WriterRead :=
  { read_id := ['r'], seq := seq, qstring := seq.map (fun _ => '!'), raw_data_size := 10 }

/-- Collaborators for which the record of a read without bases cannot be
produced and the record of any other read is its sequence. -/
def example_writer_collaborators : WriterCollaborators :=
  { mean_qscore_from_qstring := fun _ => 10
    extract_sam_lines := fun read _ _ =>
      if read.seq = [] then Except.error ['e', 'm', 'p', 't', 'y'] else Except.ok [read.seq] }

/-! ## Barcode classification (`demux::BarcodeClassifier`, whose code is not under `src/`) -/

/-- Modelled from the spec: the classifier `demux::BarcodeClassifier`, of which
`src/` holds only the tests and the node that owns one: "Constructed once from
a list of kit names (validated against a built-in table; an unknown name fails
construction) and a double-ended flag." -/
structure BarcodeClassifier where
  kit_names : List String
  barcode_both_ends : Bool
  deriving DecidableEq

/-- Modelled from the spec: the constructor of `demux::BarcodeClassifier`, which
is not under `src/`.  The kit names are "validated against a built-in table; an
unknown name fails construction"; `kit_table` holds the names of the built-in
table, and `none` stands for the exception that construction throws. -/
def BarcodeClassifier.create (kit_table : List String) (kit_names : List String)
    (barcode_both_ends : Bool) : Option BarcodeClassifier :=
  if kit_names.all (fun kit_name => kit_table.contains kit_name) then
    some { kit_names := kit_names, barcode_both_ends := barcode_both_ends }
  else none

/-- Modelled from the spec: what the classifier finds at one end of a read, the
best-scoring candidate reference "above a kit-specific threshold"; no such
candidate is `none`. -/
structure EndCall where
  adapter_name : String
  score : ℚ
  deriving DecidableEq

/-- The label of a read that is not classified. -/
def unclassified : String := "unclassified"

/-- Modelled from the spec: the decision of `BarcodeClassifier::barcode`, which
is not under `src/`, from what was found at the head and at the tail of the
read.  Single-ended: "selects the best score above a kit-specific threshold,
else unclassified".  Double-ended: "classification succeeds only if head and
tail independently agree on the same identity; disagreement yields
unclassified even with one confident end". -/
def barcode (barcode_both_ends : Bool) (head tail : Option EndCall) : String :=
  if barcode_both_ends then
    match head, tail with
    | some h, some t => if h.adapter_name = t.adapter_name then h.adapter_name else unclassified
    | _, _ => unclassified
  else
    match head, tail with
    | some h, some t => if h.score < t.score then t.adapter_name else h.adapter_name
    | some h, none => h.adapter_name
    | none, some t => t.adapter_name
    | none, none => unclassified

/-- A table of three kits. -/
def example_kit_table : List String := ["SQK-RBK114-96", "SQK-RPB004", "EXP-PBC096"]

/-! ### Vocabulary of the claims about bounds -/

/-- The texts of the 12 fixed fields of a line. -/
structure FieldTexts where
  qname : List Char
  qlen : List Char
  qstart : List Char
  qend : List Char
  strand : Char
  tname : List Char
  tlen : List Char
  tstart : List Char
  tend : List Char
  num_residue_matches : List Char
  alignment_block_length : List Char
  mapq : List Char
  deriving DecidableEq

/-- The digits of the text of a number: the text without its sign. -/
def int_text_digits (s : List Char) : List Char :=
  if s.head? == some '-' || s.head? == some '+' then s.tail else s

/-- The number that the text of a number denotes. -/
def int_text_value (s : List Char) : Int :=
  if s.head? == some '-' then -(digits_value (int_text_digits s) : Int)
  else (digits_value (int_text_digits s) : Int)

/-- The text is a well-formed number: an optional sign and at least one decimal
digit, of a value in the range of `int`. -/
def is_int_text (s : List Char) : Prop :=
  int_text_digits s ≠ [] ∧ (∀ c ∈ int_text_digits s, c.isDigit = true) ∧
    INT_MIN ≤ int_text_value s ∧ int_text_value s ≤ INT_MAX

/-- The text is a well-formed name: not empty and without white space. -/
def is_name_text (s : List Char) : Prop := s ≠ [] ∧ ∀ c ∈ s, isspace c = false

/-- The 12 fields are well formed. -/
def FieldTexts.well_formed (f : FieldTexts) : Prop :=
  is_name_text f.qname ∧ is_int_text f.qlen ∧ is_int_text f.qstart ∧ is_int_text f.qend ∧
  isspace f.strand = false ∧ is_name_text f.tname ∧ is_int_text f.tlen ∧
  is_int_text f.tstart ∧ is_int_text f.tend ∧ is_int_text f.num_residue_matches ∧
  is_int_text f.alignment_block_length ∧ is_int_text f.mapq

/-- The line made of the 12 fields separated by single tabs, with nothing after
the 12th field. -/
def FieldTexts.line (f : FieldTexts) : List Char :=
  f.qname ++ '\t' :: (f.qlen ++ '\t' :: (f.qstart ++ '\t' :: (f.qend ++ '\t' ::
  (f.strand :: '\t' :: (f.tname ++ '\t' :: (f.tlen ++ '\t' :: (f.tstart ++ '\t' ::
  (f.tend ++ '\t' :: (f.num_residue_matches ++ '\t' :: (f.alignment_block_length ++ '\t' ::
  f.mapq))))))))))

/-- The record that the 12 fields denote, with the tag string `aux`. -/
def FieldTexts.entry (f : FieldTexts) (aux : List Char) : PafEntry :=
  { qname := f.qname, qlen := int_text_value f.qlen, qstart := int_text_value f.qstart,
    qend := int_text_value f.qend, strand := f.strand, tname := f.tname,
    tlen := int_text_value f.tlen, tstart := int_text_value f.tstart,
    tend := int_text_value f.tend,
    num_residue_matches := int_text_value f.num_residue_matches,
    alignment_block_length := int_text_value f.alignment_block_length,
    mapq := int_text_value f.mapq, aux := aux }

/-- The fields of a line with a signed number and a number with leading
zeros. -/
def example_texts : FieldTexts :=
  { qname := ['r', '1'], qlen := ['+', '1', '0', '0'], qstart := ['0'], qend := ['0', '9', '0'],
    strand := '-', tname := ['c', 'h', 'r'], tlen := ['5', '0', '0'], tstart := ['-', '1'],
    tend := ['9', '9'], num_residue_matches := ['8', '0'],
    alignment_block_length := ['9', '0'], mapq := ['6', '0'] }

/-! ### The lookup of a tag (`paf_aux_get`) -/

/-- The characters of a C string: those before the first NUL.  This is what
`std::string(const char*)` and `find(const char*)` read. -/
def c_str (s : List Char) : List Char := s.takeWhile (fun c => c != Char.ofNat 0)

/-- `s.find(t)` of `std::string_view`: the least position at which `t` occurs
in `s`; `none` stands for `npos`. -/
def find : List Char → List Char → Option Nat
  | [], t => if t.isEmpty then some 0 else none
  | c :: s, t => if t.isPrefixOf (c :: s) then some 0 else (find s t).map (fun i => i + 1)

/-- `s.find(ch, pos)` of `std::string_view`: the least position from `pos` on
that holds `ch`; `none` stands for `npos`, also when `pos` is past the end. -/
def find_char : List Char → Char → Nat → Option Nat
  | [], _, _ => none
  | c :: s, ch, 0 => if c = ch then some 0 else (find_char s ch 0).map (fun i => i + 1)
  | _ :: s, ch, pos + 1 => (find_char s ch pos).map (fun i => i + 1)

/-- Lines 51-56 of `paf_aux_get`: the text from `pos` up to the next tab, or up
to the end when no tab follows.  `none` stands for the `std::out_of_range` that
`substr` throws for a position past the end. -/
def value_from (aux : List Char) (pos : Nat) : Option (List Char) :=
  match find_char aux '\t' pos with
  | none => substr_from aux (pos : Int)
  | some end_pos => substr aux (pos : Int) ((end_pos : Int) - (pos : Int))

/-- The function `paf_aux_get`.  `tag` holds the characters that the parameter
`const char tag[2]` points to: `std::string(tag)` reads them as a C string, up
to the first NUL or to the NUL that ends them.  The pattern is handed to `find`
as a C string too (`t.c_str()`). -/
def paf_aux_get (paf_entry : PafEntry) (tag : List Char) (type : Char) :
    Option (List Char) :=
  let t : List Char := c_str tag ++ [':'] ++ [type] ++ [':']
  let aux : List Char := paf_entry.aux
  match find aux (c_str t) with
  | none => some []
  | some pos => value_from aux (pos + 5)

/-- One field `TAG:TYPE:VALUE` of a tag string. -/
structure AuxField where
  tag0 : Char
  tag1 : Char
  type : Char
  value : List Char
  deriving DecidableEq

/-- The text `TAG:TYPE:VALUE` of a field. -/
def AuxField.text (f : AuxField) : List Char :=
  f.tag0 :: f.tag1 :: ':' :: f.type :: ':' :: f.value

/-- The tab-separated list of the fields. -/
def join_fields : List AuxField → List Char
  | [] => []
  | [f] => f.text
  | f :: g :: rest => f.text ++ '\t' :: join_fields (g :: rest)

/-- The field has the tag `a b` and the type `type`. -/
def AuxField.has (f : AuxField) (a b type : Char) : Bool :=
  f.tag0 == a && f.tag1 == b && f.type == type

/-- The VALUE of the first field with the tag `a b` and the type `type`, the
empty string when there is none. -/
def first_value (fields : List AuxField) (a b type : Char) : List Char :=
  match fields.find? (fun f => f.has a b type) with
  | some f => f.value
  | none => []

/-- A tag string whose first field, of tag `cm`, has a VALUE that holds the
text `tp:A:`, followed by a field of tag `tp`. -/
def nested_fields : List AuxField :=
  [{ tag0 := 'c', tag1 := 'm', type := 'Z', value := ['t', 'p', ':', 'A', ':', 'P'] },
   { tag0 := 't', tag1 := 'p', type := 'A', value := ['S'] }]

/-- The tag string of `example_entry` as a list of fields. -/
def example_fields : List AuxField :=
  [{ tag0 := 't', tag1 := 'p', type := 'A', value := ['P'] },
   { tag0 := 'c', tag1 := 'm', type := 'i', value := ['5'] }]

/-! ### A read shorter than the offset of the anchor -/

/-- The calculator of the example with an offset of seven bases between the
adapter and the anchor, more than the six bases that precede the adapter in
`example_simplex_read`. -/
def long_offset_calculator : RNAPolyTailCalculator :=
  { m_config := { rna_adapter := ['A', 'C', 'G', 'T'], flank_threshold := 9 / 10,
                  primer_window := 6, rna_offset := 7 }
    m_rna_adapter := true
    max_tail_length := 750 }

/-! ### Sequences of calls of `update_progress_bar` -/

/-- A sequence of calls of `update_progress_bar` on one tracker: every call
comes with the value of `utils::is_fd_tty(stderr)` at that time and with the
snapshot it is handed. -/
def update_progress_bars (to_double to_float : ℚ → ℚ) :
    List (Bool × NamedStats) → ProgressTracker → Option ProgressTracker
  | [], t => some t
  | call :: rest, t =>
    match update_progress_bar to_double to_float call.1 call.2 t with
    | none => none
    | some t1 => update_progress_bars to_double to_float rest t1

/-- A snapshot in which `written` reads were written and `filtered` reads were
filtered. -/
def reads_stats (written filtered : ℚ) : NamedStats :=
  [("HtsWriter.unique_simplex_reads_written", written),
   ("ReadFilterNode.simplex_reads_filtered", filtered)]

/-- Four calls on a terminal: 4 of the 10 expected reads, then 12 reads, then
2 reads, then 5 reads. -/
def example_calls : List (Bool × NamedStats) :=
  [(true, reads_stats 3 1), (true, reads_stats 9 3), (true, reads_stats 2 0),
   (true, reads_stats 4 1)]

/-! ## Alignment processing items (`src/dorado/alignment/alignment_processing_items.cpp`)

A `std::filesystem::path` is the text of the path in the generic format, with
`/` as separator. -/

/-- `p.filename()`: the text after the last separator. -/
def path_filename (p : List Char) : List Char :=
  (p.reverse.takeWhile (fun c => c != '/')).reverse

/-- `p.extension()`: the part of the file name from its last dot on; the file
names `.` and `..`, a name without a dot and a name whose only dot is its first
character have no extension. -/
def path_extension (p : List Char) : List Char :=
  if path_filename p = ['.'] ∨ path_filename p = ['.', '.'] then []
  else if ((path_filename p).reverse.takeWhile (fun c => c != '.')).length
      = (path_filename p).length then []
  else if ((path_filename p).reverse.takeWhile (fun c => c != '.')).length + 1
      = (path_filename p).length then []
  else '.' :: ((path_filename p).reverse.takeWhile (fun c => c != '.')).reverse

/-- `p.replace_extension(replacement)`: the extension is removed; a replacement
that is not empty is appended, after a dot when it does not start with one. -/
def path_replace_extension (p replacement : List Char) : List Char :=
  if replacement = [] then p.take (p.length - (path_extension p).length)
  else if replacement.head? = some '.' then
    p.take (p.length - (path_extension p).length) ++ replacement
  else p.take (p.length - (path_extension p).length) ++ '.' :: replacement

/-- `p / q` for a path `q` that is not absolute: a separator is put between the
two unless `p` is empty or ends with one. -/
def path_append (p q : List Char) : List Char :=
  if q.head? = some '/' then q
  else if p = [] ∨ p.getLast? = some '/' then p ++ q
  else p ++ '/' :: q

/-- The set of `get_supported_compression_extensions()`. -/
def supported_compression_extensions : List (List Char) :=
  [['.', 'g', 'z', 'i', 'p'], ['.', 'g', 'z']]

/-- The `while` loop of `replace_extension` (lines 50-52); every iteration
removes at least three characters, so the length of the path is fuel enough. -/
def strip_compression_extensions : Nat → List Char → List Char
  | 0, output_path => output_path
  | fuel + 1, output_path =>
    if path_extension output_path ∈ supported_compression_extensions then
      strip_compression_extensions fuel (path_replace_extension output_path [])
    else output_path

/-- The function `replace_extension` of the anonymous namespace. -/
def replace_extension (output_path : List Char) : List Char :=
  path_replace_extension (strip_compression_extensions output_path.length output_path)
    ['b', 'a', 'm']

/-- The values of `OutputMode` that the file names. -/
inductive OutputMode where
  | SAM
  | UBAM
  | BAM
  deriving DecidableEq

/-- An element of `m_processing_list` as `emplace_back(input, output, mode)`
constructs it; its type is declared in a header that is not under `src/`. -/
structure ProcessingItem where
  input : List Char
  output : List Char
  output_mode : OutputMode
  deriving DecidableEq

/-- The member `m_working_paths`: the inputs collected under every output
name.  The container is declared in a header that is not under `src/`; its
entries are kept here in the order of their first insertion. -/
abbrev WorkingPaths := List (List Char × List (List Char))

/-- The statement `m_working_paths[key].push_back(value)`. -/
def working_paths_push : WorkingPaths → List Char → List Char → WorkingPaths
  | [], key, value => [(key, [value])]
  | (k, v) :: rest, key, value =>
    if k = key then (k, v ++ [value]) :: rest
    else (k, v) :: working_paths_push rest key value

/-- The members of `AlignmentProcessingItems` that `add_all_valid_files` reads
or writes. -/
structure AlignmentProcessingItems where
  m_input_path : List Char
  m_output_folder : List Char
  m_working_paths : WorkingPaths
  m_processing_list : List ProcessingItem
  deriving DecidableEq

/-- The function `AlignmentProcessingItems::add_to_working_files`. -/
def add_to_working_files (self : AlignmentProcessingItems) (input_relative_path : List Char) :
    AlignmentProcessingItems :=
  { self with
    m_working_paths := working_paths_push self.m_working_paths
      (replace_extension (path_append self.m_output_folder input_relative_path))
      input_relative_path }

/-- The function `AlignmentProcessingItems::try_add_to_working_files`;
`is_valid_input_file` stands for the function of that name, which asks htslib
and the FASTQ reader. -/
def try_add_to_working_files (is_valid_input_file : List Char → Bool)
    (self : AlignmentProcessingItems) (input_root input_relative_path : List Char) :
    AlignmentProcessingItems :=
  if !is_valid_input_file (path_append input_root input_relative_path) then self
  else add_to_working_files self input_relative_path

/-- The function `AlignmentProcessingItems::create_working_file_map`:
`entries` are the paths of the directory entries that the iterator yields,
relative to the input folder (`fs::relative(input_path, input_root)`). -/
def create_working_file_map (is_valid_input_file : List Char → Bool)
    (entries : List (List Char)) (self : AlignmentProcessingItems) : AlignmentProcessingItems :=
  entries.foldl
    (fun acc relative_path =>
      try_add_to_working_files is_valid_input_file acc self.m_input_path relative_path)
    self

/-- The body of the loop of `add_all_valid_files` (lines 171-184) for one entry
of `m_working_paths`. -/
def add_output_entry (input_root output_root : List Char)
    (list : List ProcessingItem) (output_to_inputs_pair : List Char × List (List Char)) :
    List ProcessingItem :=
  match output_to_inputs_pair.2 with
  | [input_file] =>
    -- single unique output file name
    list ++ [{ input := path_append input_root input_file
               output := output_to_inputs_pair.1
               output_mode := OutputMode.SAM }]
  | input_files =>
    -- duplicate output names, disambiguate by preserving input file extension and
    -- extending with '.bam'
    input_files.foldl
      (fun acc input_relative_path =>
        acc ++ [{ input := path_append input_root input_relative_path
                  output := path_append output_root input_relative_path ++ ['.', 'b', 'a', 'm']
                  output_mode := OutputMode.SAM }])
      list

/-- The function `AlignmentProcessingItems::add_all_valid_files`. -/
def add_all_valid_files (is_valid_input_file : List Char → Bool)
    (entries : List (List Char)) (self : AlignmentProcessingItems) : AlignmentProcessingItems :=
  { (create_working_file_map is_valid_input_file entries self) with
    m_processing_list :=
      (create_working_file_map is_valid_input_file entries self).m_working_paths.foldl
        (add_output_entry self.m_input_path self.m_output_folder)
        (create_working_file_map is_valid_input_file entries self).m_processing_list }

/-- The items of input folder `in` and output folder `out` before any file is
added. -/
def example_items : AlignmentProcessingItems :=
  { m_input_path := ['i', 'n'], m_output_folder := ['o', 'u', 't'], m_working_paths := [],
    m_processing_list := [] }

/-- The files `a.fastq`, `a.sam` and `a.fastq.bam` of the input folder. -/
def example_entries : List (List Char) :=
  [['a', '.', 'f', 'a', 's', 't', 'q'], ['a', '.', 's', 'a', 'm'],
   ['a', '.', 'f', 'a', 's', 't', 'q', '.', 'b', 'a', 'm']]

/-! ## The model runner (`src/dorado/basecall/ModelRunner.h`) -/

/-- Line 79 of the constructor of `ModelRunner`, "adjust chunk size to be a
multiple of the stride": the value of `chunk_size` after
`chunk_size -= chunk_size % model_config.stride;`.  The remainder of C++ has the
sign of the dividend; a stride of zero is undefined behaviour (`none`). -/
def adjusted_chunk_size (chunk_size stride : Int) : Option Int :=
  if stride = 0 then none else some (chunk_size - Int.tmod chunk_size stride)

/-! ## Theorems about `stitch_chunks` -/

/-- C2 fails as stated: for a read whose one called chunk has an empty move
table, line 6 of `stitch_chunks` divides `raw_chunk_size` by `moves.size() = 0`
before anything is copied, whatever the helper does with other divisors, so
the read does not become the chunk. -/
theorem empty_move_table_counterexample :
    empty_moves_read.called_chunks = [empty_moves_chunk] ∧
    empty_moves_read.num_chunks = 1 ∧
    stitch_chunks div_round_closest empty_moves_read = none ∧
    (∀ drc : Int → Int → Int, stitch_chunks drc empty_moves_read = none) ∧
    stitch_chunks div_round_closest empty_moves_read
      ≠ some { empty_moves_read with
               seq := empty_moves_chunk.seq
               qstring := empty_moves_chunk.qstring
               moves := empty_moves_chunk.moves } := by
  refine ⟨rfl, rfl, rfl, fun _ => rfl, ?_⟩
  intro h
  cases h

/-- C2 (amended): for a read with exactly one called chunk whose move table is
not empty, `stitch_chunks` is the identity on that chunk: the read's `seq`,
`qstring` and `moves` become exactly the chunk's, with no trimming.  This holds
for every value the down-sampling helper returns. -/
theorem stitch_chunks_single_chunk (drc : Int → Int → Int) (read : Read) (c : Chunk)
    (hc : read.called_chunks = [c]) (hn : read.num_chunks = 1) (hm : c.moves ≠ []) :
    stitch_chunks drc read
      = some { read with seq := c.seq, qstring := c.qstring, moves := c.moves } := by
  have h1 : ¬ ((c.seq.length : Int) < 0) := by omega
  have h2 : ¬ ((c.qstring.length : Int) < 0) := by omega
  have h3 : ¬ ((c.moves.length : Int) < 0) := by omega
  simp [stitch_chunks, hc, hn, hm, stitch_loop, stitch_last, stitch_init, substr_from,
    moves_range, accumulate_strings, h1, h2, h3]

theorem stitch_chunks_single_chunk_witness :
    stitch_chunks div_round_closest example_single_read
      = some { example_single_read with
               seq := (example_chunk 0).seq
               qstring := (example_chunk 0).qstring
               moves := (example_chunk 0).moves } :=
  stitch_chunks_single_chunk div_round_closest example_single_read (example_chunk 0) rfl rfl
    (by decide)

theorem span_append {p : Char → Bool} :
    ∀ (l : List Char) (x : Char) (r : List Char), (∀ c ∈ l, p c = true) → p x = false →
      (l ++ x :: r).takeWhile p = l ∧ (l ++ x :: r).dropWhile p = x :: r
  | [], x, r, _, hx => by simp [List.takeWhile, List.dropWhile, hx]
  | a :: l, x, r, hl, hx => by
    have ha : p a = true := hl a (by simp)
    have ih := span_append l x r (fun c hc => hl c (by simp [hc])) hx
    simp [List.takeWhile, List.dropWhile, ha, ih.1, ih.2]

theorem digit_char_spec (d : Nat) (h : d < 10) :
    (digit_char d).isDigit = true ∧ (digit_char d).toNat - 48 = d ∧
      isspace (digit_char d) = false ∧ digit_char d ≠ '-' ∧ digit_char d ≠ '+' := by
  interval_cases d <;> decide

theorem digits_rev_spec :
    ∀ (fuel n : Nat), n ≤ fuel →
      (∀ d ∈ digits_rev fuel n, d < 10) ∧
        (digits_rev fuel n).foldr (fun d acc => d + 10 * acc) 0 = n ∧ digits_rev fuel n ≠ []
  | 0, n, h => by
    have : n = 0 := by omega
    subst this
    simp [digits_rev]
  | fuel + 1, n, h => by
    unfold digits_rev
    split
    · simp
      omega
    · have ih := digits_rev_spec fuel (n / 10) (by omega)
      refine ⟨?_, ?_, by simp⟩
      · intro d hd
        simp only [List.mem_cons] at hd
        rcases hd with rfl | hd
        · omega
        · exact ih.1 d hd
      · simp only [List.foldr_cons, ih.2.1]
        omega

theorem digits_value_map (l : List Nat) (h : ∀ d ∈ l, d < 10) :
    digits_value (l.reverse.map digit_char) = l.foldr (fun d acc => d + 10 * acc) 0 := by
  unfold digits_value
  rw [List.foldl_map, List.foldl_reverse]
  induction l with
  | nil => rfl
  | cons a l ih =>
    simp only [List.foldr_cons]
    rw [ih (fun d hd => h d (by simp [hd])), (digit_char_spec a (h a (by simp))).2.1]
    omega

theorem print_nat_spec (n : Nat) :
    (∀ c ∈ print_nat n, c.isDigit = true) ∧ digits_value (print_nat n) = n ∧
      ∃ c t, print_nat n = c :: t ∧ c.isDigit = true ∧ isspace c = false ∧ c ≠ '-' ∧ c ≠ '+' := by
  obtain ⟨h1, h2, h3⟩ := digits_rev_spec n n (Nat.le_refl n)
  have hall : ∀ c ∈ print_nat n, ∃ d, d < 10 ∧ c = digit_char d := by
    intro c hc
    simp only [print_nat, List.mem_map, List.mem_reverse] at hc
    obtain ⟨d, hd, rfl⟩ := hc
    exact ⟨d, h1 d hd, rfl⟩
  refine ⟨?_, ?_, ?_⟩
  · intro c hc
    obtain ⟨d, hd, rfl⟩ := hall c hc
    exact (digit_char_spec d hd).1
  · rw [print_nat, digits_value_map _ h1, h2]
  · cases hp : print_nat n with
    | nil =>
      simp only [print_nat, List.map_eq_nil_iff, List.reverse_eq_nil_iff] at hp
      exact absurd hp h3
    | cons c t =>
      obtain ⟨d, hd, rfl⟩ := hall c (by simp [hp])
      have := digit_char_spec d hd
      exact ⟨_, t, rfl, this.1, this.2.2.1, this.2.2.2.1, this.2.2.2.2⟩

theorem sentry_tab (c : Char) (l : List Char) (hc : isspace c = false) :
    sentry { buf := '\t' :: c :: l, eofbit := false, failbit := false }
      = ({ buf := c :: l, eofbit := false, failbit := false }, true) := by
  have ht : isspace '\t' = true := by decide
  simp [sentry, IStream.good, List.dropWhile, ht, hc]

theorem sentry_here (c : Char) (l : List Char) (hc : isspace c = false) :
    sentry { buf := c :: l, eofbit := false, failbit := false }
      = ({ buf := c :: l, eofbit := false, failbit := false }, true) := by
  simp [sentry, IStream.good, List.dropWhile, hc]

theorem extract_string_here (name rest : List Char) (cur : List Char) (hne : name ≠ [])
    (hws : ∀ c ∈ name, isspace c = false) :
    extract_string { buf := name ++ '\t' :: rest, eofbit := false, failbit := false } cur
      = ({ buf := '\t' :: rest, eofbit := false, failbit := false }, name) := by
  cases name with
  | nil => exact absurd rfl hne
  | cons c t =>
    have hsp := span_append (p := fun c => !isspace c) (c :: t) '\t' rest
      (by intro x hx; simp [hws x hx]) (by decide)
    unfold extract_string
    rw [List.cons_append, sentry_here c _ (hws c (by simp))]
    simp only
    rw [← List.cons_append, hsp.1, hsp.2]
    simp

theorem extract_string_tab (name rest : List Char) (cur : List Char) (hne : name ≠ [])
    (hws : ∀ c ∈ name, isspace c = false) :
    extract_string { buf := '\t' :: (name ++ '\t' :: rest), eofbit := false, failbit := false } cur
      = ({ buf := '\t' :: rest, eofbit := false, failbit := false }, name) := by
  cases name with
  | nil => exact absurd rfl hne
  | cons c t =>
    have hsp := span_append (p := fun c => !isspace c) (c :: t) '\t' rest
      (by intro x hx; simp [hws x hx]) (by decide)
    unfold extract_string
    rw [List.cons_append, sentry_tab c _ (hws c (by simp))]
    simp only
    rw [← List.cons_append, hsp.1, hsp.2]
    simp

theorem extract_char_tab (c : Char) (rest : List Char) (cur : Char) (hc : isspace c = false) :
    extract_char { buf := '\t' :: c :: rest, eofbit := false, failbit := false } cur
      = ({ buf := rest, eofbit := false, failbit := false }, c) := by
  unfold extract_char
  rw [sentry_tab c _ hc]

theorem extract_int_tab (n : Int) (rest : List Char) (cur : Int)
    (hmin : INT_MIN ≤ n) (hmax : n ≤ INT_MAX) :
    extract_int { buf := '\t' :: (print_int n ++ '\t' :: rest), eofbit := false, failbit := false }
        cur
      = ({ buf := '\t' :: rest, eofbit := false, failbit := false }, n) := by
  obtain ⟨hdig, hval, c, t, hct, hcd, hcs, hcm, hcp⟩ := print_nat_spec n.natAbs
  have hsp := span_append (p := Char.isDigit) (print_nat n.natAbs) '\t' rest hdig (by decide)
  unfold extract_int print_int
  by_cases hn : n < 0
  · rw [if_pos hn, List.cons_append, sentry_tab '-' _ (by decide)]
    simp only [List.head?_cons, beq_self_eq_true, Bool.true_or, if_true, List.tail_cons, hsp.1,
      hsp.2, hval]
    have hv : -((n.natAbs : Nat) : Int) = n := by omega
    rw [hv, hct]
    simp only [List.isEmpty_cons, Bool.false_eq_true, if_false]
    rw [if_neg (by omega), if_neg (by omega)]
  · rw [if_neg hn, hct, List.cons_append, sentry_tab c _ hcs]
    have h1 : (some c == some '-') = false := by simp [hcm]
    have h2 : (some c == some '+') = false := by simp [hcp]
    simp only [List.head?_cons, h1, h2, Bool.or_self, Bool.false_eq_true, if_false]
    rw [← List.cons_append, ← hct, hsp.1, hsp.2, hval]
    have hv : ((n.natAbs : Nat) : Int) = n := by omega
    rw [hv, hct]
    simp only [List.isEmpty_cons, Bool.false_eq_true, if_false]
    rw [if_neg (by omega), if_neg (by omega)]

theorem getline_tab (aux : List Char) (cur : List Char) (hnl : ∀ c ∈ aux, c ≠ '\n') :
    (getline { buf := '\t' :: aux, eofbit := false, failbit := false } cur).2 = '\t' :: aux := by
  have h1 : ∀ l : List Char, (∀ c ∈ l, c ≠ '\n') →
      l.takeWhile (fun c => c != '\n') = l ∧ l.dropWhile (fun c => c != '\n') = [] := by
    intro l hl
    induction l with
    | nil => simp
    | cons a l ih =>
      have ha : (a != '\n') = true := by simpa using hl a (by simp)
      have := ih (fun c hc => hl c (by simp [hc]))
      simp [List.takeWhile, List.dropWhile, ha, this.1, this.2]
  have h2 := h1 ('\t' :: aux) (by
    intro c hc
    simp only [List.mem_cons] at hc
    rcases hc with rfl | hc
    · decide
    · exact hnl c hc)
  unfold getline
  simp only [IStream.good, Bool.not_false, Bool.and_self, Bool.not_true, Bool.false_eq_true,
    if_false, h2.1, h2.2]

theorem serialize_paf_eq (e : PafEntry) :
    serialize_paf e =
      e.qname ++ '\t' :: (print_int e.qlen ++ '\t' :: (print_int e.qstart ++ '\t' :: (print_int
      e.qend ++ '\t' :: (e.strand :: '\t' :: (e.tname ++ '\t' :: (print_int e.tlen ++ '\t' ::
      (print_int e.tstart ++ '\t' :: (print_int e.tend ++ '\t' :: (print_int
      e.num_residue_matches ++ '\t' :: (print_int e.alignment_block_length ++ '\t' :: (print_int
      e.mapq ++ '\t' :: (e.aux)))))))))))) := by
  simp [serialize_paf, put_string, put_char, put_int, List.append_assoc]

theorem parse_paf_fields (entry e : PafEntry) (hr : e.in_range)
    (d1 : e.qname ≠ []) (d2 : ∀ c ∈ e.qname, isspace c = false)
    (d3 : isspace e.strand = false)
    (d4 : e.tname ≠ []) (d5 : ∀ c ∈ e.tname, isspace c = false) :
    parse_paf entry (serialize_paf e) =
      { e with aux := (strip_tab
          (getline { buf := '\t' :: e.aux, eofbit := false, failbit := false } entry.aux).2) } := by
  obtain ⟨h1, h2, h3, h4, h5, h6, h7, h8, h9⟩ := hr
  rw [serialize_paf_eq]
  unfold parse_paf parse_paf_stream IStream.ofString
  simp only [extract_string_here _ _ _ d1 d2, extract_int_tab _ _ _ h1.1 h1.2,
    extract_int_tab _ _ _ h2.1 h2.2, extract_int_tab _ _ _ h3.1 h3.2,
    extract_char_tab _ _ _ d3, extract_string_tab _ _ _ d4 d5,
    extract_int_tab _ _ _ h4.1 h4.2, extract_int_tab _ _ _ h5.1 h5.2,
    extract_int_tab _ _ _ h6.1 h6.2, extract_int_tab _ _ _ h7.1 h7.2,
    extract_int_tab _ _ _ h8.1 h8.2, extract_int_tab _ _ _ h9.1 h9.2]

theorem parse_paf_qname (entry : PafEntry) (row : List Char) :
    (parse_paf entry row).qname = (extract_string (IStream.ofString row) entry.qname).2 := rfl

/-- C4 (amended): for every record whose names are non-empty and free of white
space, whose strand is not a white-space character and whose tag string holds
no newline (the tag string may be empty), `parse_paf (serialize_paf record)`
equals the record on all 12 fixed fields and on the tag string, whatever the
default-constructed entry is. -/
theorem parse_serialize_roundtrip (entry e : PafEntry) (hr : e.in_range)
    (hd : e.delimitable) : parse_paf entry (serialize_paf e) = e := by
  obtain ⟨d1, d2, d3, d4, d5, d6⟩ := hd
  rw [parse_paf_fields entry e hr d1 d2 d3 d4 d5, getline_tab _ _ d6]
  rfl

theorem parse_serialize_roundtrip_witness :
    parse_paf nameless_entry (serialize_paf example_entry) = example_entry ∧
    parse_paf nameless_entry (serialize_paf { example_entry with aux := [] })
      = { example_entry with aux := [] } :=
  ⟨parse_serialize_roundtrip nameless_entry example_entry
      (by unfold PafEntry.in_range; decide) (by unfold PafEntry.delimitable; decide),
    parse_serialize_roundtrip nameless_entry { example_entry with aux := [] }
      (by unfold PafEntry.in_range; decide) (by unfold PafEntry.delimitable; decide)⟩

/-- C4 fails as stated: a record whose tag string holds a newline comes back
with the tag string cut at the newline, and a record with an empty query name
comes back with the next field as its query name. -/
theorem parse_serialize_counterexample :
    newline_entry.in_range ∧ nameless_entry.in_range ∧
    (∀ entry : PafEntry,
      (parse_paf entry (serialize_paf newline_entry)).aux = ['a'] ∧
      parse_paf entry (serialize_paf newline_entry) ≠ newline_entry) ∧
    (∀ entry : PafEntry,
      (parse_paf entry (serialize_paf nameless_entry)).qname = ['1', '0', '0', '0'] ∧
      parse_paf entry (serialize_paf nameless_entry) ≠ nameless_entry) := by
  refine ⟨by unfold PafEntry.in_range; decide, by unfold PafEntry.in_range; decide, ?_, ?_⟩
  · intro entry
    have h : (parse_paf entry (serialize_paf newline_entry)).aux = ['a'] := by
      rw [parse_paf_fields entry newline_entry (by unfold PafEntry.in_range; decide)
        (by decide) (by decide) (by decide) (by decide) (by decide)]
      rfl
    refine ⟨h, fun heq => ?_⟩
    rw [heq] at h
    exact absurd h (by decide)
  · intro entry
    have hs : serialize_paf nameless_entry
        = '\t' :: (['1', '0', '0', '0'] ++ '\t' :: (serialize_paf nameless_entry).drop 6) := by
      decide
    have h : (parse_paf entry (serialize_paf nameless_entry)).qname = ['1', '0', '0', '0'] := by
      rw [parse_paf_qname, hs]
      unfold IStream.ofString
      rw [extract_string_tab _ _ _ (by decide) (by decide)]
    refine ⟨h, fun heq => ?_⟩
    rw [heq] at h
    exact absurd h (by decide)

/-- C5: `serialize_paf` returns the 12 fixed fields in the order `qname`,
`qlen`, `qstart`, `qend`, `strand`, `tname`, `tlen`, `tstart`, `tend`,
`num_residue_matches`, `alignment_block_length`, `mapq`, each followed by one
tab character, followed by the tag string `aux` verbatim; with an empty `aux`
the output therefore ends with the tab that follows the 12th field. -/
theorem serialize_paf_layout (e : PafEntry) :
    serialize_paf e =
      ([e.qname, print_int e.qlen, print_int e.qstart, print_int e.qend, [e.strand], e.tname,
        print_int e.tlen, print_int e.tstart, print_int e.tend,
        print_int e.num_residue_matches, print_int e.alignment_block_length,
        print_int e.mapq].map (fun field => field ++ ['\t'])).flatten ++ e.aux ∧
    (∃ body, serialize_paf { e with aux := [] } = body ++ print_int e.mapq ++ ['\t']) := by
  have h : serialize_paf e =
      ([e.qname, print_int e.qlen, print_int e.qstart, print_int e.qend, [e.strand], e.tname,
        print_int e.tlen, print_int e.tstart, print_int e.tend,
        print_int e.num_residue_matches, print_int e.alignment_block_length,
        print_int e.mapq].map (fun field => field ++ ['\t'])).flatten ++ e.aux := by
    simp [serialize_paf, put_string, put_char, put_int, List.append_assoc]
  refine ⟨h, ?_⟩
  refine ⟨e.qname ++ '\t' :: (print_int e.qlen ++ '\t' :: (print_int e.qstart ++ '\t' :: (print_int
      e.qend ++ '\t' :: (e.strand :: '\t' :: (e.tname ++ '\t' :: (print_int e.tlen ++ '\t' ::
      (print_int e.tstart ++ '\t' :: (print_int e.tend ++ '\t' :: (print_int
      e.num_residue_matches ++ '\t' :: (print_int e.alignment_block_length ++ '\t' ::
      ([]))))))))))), ?_⟩
  rw [serialize_paf_eq]
  simp [List.append_assoc]

/-! ## Theorems about the poly-tail calculator -/

theorem determine_adapter_mode (ext : Collaborators) (calculator : RNAPolyTailCalculator)
    (read : SimplexRead) (r : EdlibAlignResult) (hmode : calculator.m_rna_adapter = true)
    (hal : adapter_alignment ext calculator read = some r) :
    determine_signal_anchor_and_strand ext calculator read =
      if score_meets ext.to_float r.editDistance calculator.m_config.rna_adapter.length
          calculator.m_config.flank_threshold then
        match r.startLocations[0]? with
        | none => none
        | some loc0 =>
          if (read.seq.length : Int) - base_anchor calculator read loc0 < 0 then none
          else
            match (seq_to_sig_map ext read)[((read.seq.length : Int)
                - base_anchor calculator read loc0).toNat]? with
            | none => none
            | some v =>
              some { found := false, signal_anchor := v, trailing_base_count := 0,
                     strand := false }
      else some not_found := by
  unfold adapter_alignment at hal
  unfold determine_signal_anchor_and_strand
  simp only [hmode, Bool.not_true, Bool.false_eq_true, if_false]
  cases hs : substr read.seq (max 0 ((read.seq.length : Int) - calculator.m_config.primer_window))
      calculator.m_config.primer_window with
  | none => simp [hs] at hal
  | some read_bottom =>
    simp only [hs, Option.some.injEq] at hal
    subst hal
    rfl

/-- C6: in adapter mode, when the adapter (not empty) has been aligned,
`determine_signal_anchor_and_strand` takes the accepting branch exactly when
the score `1 - edit_distance / adapter_length` is at least the configured
threshold: at or above the threshold its result is the anchor looked up in the
sequence-to-signal map (or the failure of that lookup), below the threshold its
result is "not found" (`signal_anchor = -1`, trailing base count 0), and that
for every move table, stride, signal length and stored anchor of the read and
for every sequence-to-signal map. -/
theorem accepted_exactly_at_threshold (ext : Collaborators)
    (calculator : RNAPolyTailCalculator) (read : SimplexRead) (r : EdlibAlignResult)
    (hmode : calculator.m_rna_adapter = true)
    (hne : calculator.m_config.rna_adapter ≠ [])
    (hal : adapter_alignment ext calculator read = some r) :
    determine_signal_anchor_and_strand ext calculator read =
      (if calculator.m_config.flank_threshold ≤
          adapter_score ext.to_float r.editDistance calculator.m_config.rna_adapter.length then
        match r.startLocations[0]? with
        | none => none
        | some loc0 =>
          if (read.seq.length : Int) - base_anchor calculator read loc0 < 0 then none
          else
            match (seq_to_sig_map ext read)[((read.seq.length : Int)
                - base_anchor calculator read loc0).toNat]? with
            | none => none
            | some v =>
              some { found := false, signal_anchor := v, trailing_base_count := 0,
                     strand := false }
      else
        some { found := false, signal_anchor := -1, trailing_base_count := 0,
               strand := false }) ∧
    (accepted ext calculator read = true ↔
      calculator.m_config.flank_threshold ≤
        adapter_score ext.to_float r.editDistance calculator.m_config.rna_adapter.length) ∧
    (adapter_score ext.to_float r.editDistance calculator.m_config.rna_adapter.length
        < calculator.m_config.flank_threshold →
      ∀ (moves : List Nat) (stride samples : Nat) (stored : Int)
        (map : List Nat → Nat → Nat → Nat → List Int),
        determine_signal_anchor_and_strand { ext with moves_to_map := map } calculator
          { read with moves := moves, model_stride := stride, raw_data_samples := samples,
                      rna_adapter_end_signal_pos := stored }
          = some { found := false, signal_anchor := -1, trailing_base_count := 0,
                   strand := false }) := by
  have hlen : calculator.m_config.rna_adapter.length ≠ 0 := by
    simpa [List.length_eq_zero] using hne
  refine ⟨?_, ?_, ?_⟩
  · rw [determine_adapter_mode ext calculator read r hmode hal]
    by_cases hge : calculator.m_config.flank_threshold ≤
        adapter_score ext.to_float r.editDistance calculator.m_config.rna_adapter.length
    · have : score_meets ext.to_float r.editDistance calculator.m_config.rna_adapter.length
          calculator.m_config.flank_threshold = true := by
        simp [score_meets, hlen, hge]
      rw [this, if_pos rfl, if_pos hge]
    · have : score_meets ext.to_float r.editDistance calculator.m_config.rna_adapter.length
          calculator.m_config.flank_threshold = false := by
        simp [score_meets, hlen, hge]
      rw [this, if_neg hge]
      rfl
  · simp [accepted, hal, score_meets, hlen]
  · intro hlt moves stride samples stored map
    have hal2 : adapter_alignment { ext with moves_to_map := map } calculator
        { read with moves := moves, model_stride := stride, raw_data_samples := samples,
                    rna_adapter_end_signal_pos := stored } = some r := hal
    rw [determine_adapter_mode _ calculator _ r hmode hal2]
    have : score_meets ext.to_float r.editDistance calculator.m_config.rna_adapter.length
        calculator.m_config.flank_threshold = false := by
      simp [score_meets, hlen, hlt]
    simp only [this, Bool.false_eq_true, if_false]
    rfl

theorem example_alignment (distance : Int) :
    adapter_alignment (example_collaborators distance) example_calculator example_simplex_read
      = some { editDistance := distance, startLocations := [2] } := by
  simp [adapter_alignment, example_collaborators, example_calculator, example_simplex_read,
    substr]

theorem accepted_exactly_at_threshold_witness :
    determine_signal_anchor_and_strand (example_collaborators 0) example_calculator
        example_simplex_read
      = some { found := false, signal_anchor := 30, trailing_base_count := 0,
               strand := false } ∧
    determine_signal_anchor_and_strand (example_collaborators 1) example_calculator
        example_simplex_read
      = some { found := false, signal_anchor := -1, trailing_base_count := 0,
               strand := false } ∧
    determine_signal_anchor_and_strand
        { (example_collaborators 1) with moves_to_map := fun _ _ _ _ => [7, 8, 9] }
        example_calculator
        { example_simplex_read with
          moves := [1, 1], model_stride := 7, raw_data_samples := 3,
          rna_adapter_end_signal_pos := 99 }
      = some { found := false, signal_anchor := -1, trailing_base_count := 0,
               strand := false } :=
  ⟨(accepted_exactly_at_threshold (example_collaborators 0) example_calculator
      example_simplex_read { editDistance := 0, startLocations := [2] } rfl (by decide)
      (example_alignment 0)).1.trans (by decide!),
    (accepted_exactly_at_threshold (example_collaborators 1) example_calculator
      example_simplex_read { editDistance := 1, startLocations := [2] } rfl (by decide)
      (example_alignment 1)).1.trans (by decide!),
    (accepted_exactly_at_threshold (example_collaborators 1) example_calculator
      example_simplex_read { editDistance := 1, startLocations := [2] } rfl (by decide)
      (example_alignment 1)).2.2
      (by
        simp [adapter_score, example_collaborators, example_calculator]
        norm_num)
      [1, 1] 7 3 99 (fun _ _ _ _ => [7, 8, 9])⟩

/-- C7 fails as stated: the example read ends with the adapter, its alignment
is accepted (edit distance 0, score 1), and the first component of the result
is `false`. -/
theorem found_flag_counterexample :
    accepted (example_collaborators 0) example_calculator example_simplex_read = true ∧
    determine_signal_anchor_and_strand (example_collaborators 0) example_calculator
        example_simplex_read
      = some { found := false, signal_anchor := 30, trailing_base_count := 0,
               strand := false } := by
  have hs : score_meets id 0 4 (9 / 10) = true := by
    simp [score_meets, adapter_score]
    norm_num
  refine ⟨?_, ?_⟩
  · simp only [accepted, example_alignment]
    exact hs
  · rw [determine_adapter_mode _ _ _ _ rfl (example_alignment 0)]
    have hs2 : score_meets (example_collaborators 0).to_float 0
        example_calculator.m_config.rna_adapter.length
        example_calculator.m_config.flank_threshold = true := hs
    simp only [hs2, if_true]
    decide

/-- C7 (amended): the first component of the result of
`determine_signal_anchor_and_strand` is `false` for every read, whether the
adapter alignment is accepted or rejected and whether or not the calculator is
in adapter mode. -/
theorem found_flag_always_false (ext : Collaborators) (calculator : RNAPolyTailCalculator)
    (read : SimplexRead) (res : SignalAnchorInfo)
    (h : determine_signal_anchor_and_strand ext calculator read = some res) :
    res.found = false := by
  unfold determine_signal_anchor_and_strand at h
  split at h
  · cases h; rfl
  · simp only at h
    split at h
    · cases h
    · split at h
      · split at h
        · cases h
        · split at h
          · cases h
          · split at h
            · cases h
            · cases h; rfl
      · cases h; rfl

theorem found_flag_always_false_witness :
    ({ found := false, signal_anchor := 30, trailing_base_count := 0,
       strand := false } : SignalAnchorInfo).found = false :=
  found_flag_always_false (example_collaborators 0) example_calculator example_simplex_read _
    (by
      rw [determine_adapter_mode _ _ _ _ rfl (example_alignment 0)]
      have hs : score_meets (example_collaborators 0).to_float 0
          example_calculator.m_config.rna_adapter.length
          example_calculator.m_config.flank_threshold = true := by
        simp [score_meets, adapter_score, example_collaborators, example_calculator]
        norm_num
      simp only [hs, if_true]
      decide)

/-- C9: when the calculator was built with `is_rna_adapter = false`,
`determine_signal_anchor_and_strand` returns for every read the anchor stored on
the read (`rna_adapter_end_signal_pos`) as `signal_anchor`, with trailing base
count 0, whatever the sequence, the move table, the threshold, the window and
the collaborators are. -/
theorem stored_anchor_fallback (ext : Collaborators) (calculator : RNAPolyTailCalculator)
    (read : SimplexRead) (hmode : calculator.m_rna_adapter = false) :
    determine_signal_anchor_and_strand ext calculator read
      = some { found := false, signal_anchor := read.rna_adapter_end_signal_pos,
               trailing_base_count := 0, strand := false } := by
  simp [determine_signal_anchor_and_strand, hmode]

theorem stored_anchor_fallback_witness :
    determine_signal_anchor_and_strand (example_collaborators 0)
        { example_calculator with m_rna_adapter := false } example_simplex_read
      = some { found := false, signal_anchor := 17, trailing_base_count := 0,
               strand := false } :=
  stored_anchor_fallback (example_collaborators 0)
    { example_calculator with m_rna_adapter := false } example_simplex_read rfl

theorem signal_range_some (to_float : ℚ → ℚ) (calculator : RNAPolyTailCalculator)
    (anchor total_len : Int) (samples_per_base : ℚ)
    (hk : INT_MIN ≤ spread to_float calculator samples_per_base ∧
      spread to_float calculator samples_per_base ≤ INT_MAX)
    (hlow : INT_MIN ≤ anchor - 50 ∧ anchor - 50 ≤ INT_MAX)
    (hhigh : INT_MIN ≤ anchor + spread to_float calculator samples_per_base ∧
      anchor + spread to_float calculator samples_per_base ≤ INT_MAX) :
    signal_range to_float calculator anchor total_len samples_per_base
      = some (max 0 (anchor - 50),
          min total_len (anchor + spread to_float calculator samples_per_base)) := by
  unfold spread at hk hhigh
  have e : anchor + -50 = anchor - 50 := by omega
  simp only [signal_range, round_to_int, int_add, spread, if_pos hk, e, if_pos hlow,
    if_pos hhigh]

theorem signal_range_start (to_float : ℚ → ℚ) (calculator : RNAPolyTailCalculator)
    (anchor total_len : Int) (samples_per_base : ℚ) (w : Int × Int)
    (h : signal_range to_float calculator anchor total_len samples_per_base = some w) :
    w.1 = max 0 (anchor - 50) := by
  unfold signal_range at h
  split at h
  · cases h
  · split at h
    · rename_i low high hl hh
      simp only [int_add] at hl
      split at hl
      · simp only [Option.some.injEq] at hl h
        subst h
        subst hl
        simp only
        congr 1
      · cases hl
    · cases h

/-- C10 fails as stated: with the anchor at 200 and a signal of 100 samples the
returned start is 150, outside `[0, total_len]`; this is so whatever the
calculator, the rounding and `samples_per_base` are, whenever the function
returns. -/
theorem signal_range_counterexample :
    (signal_range id example_calculator 200 100 (3 / 2) = some (150, 100) ∧
      ¬ (150 : Int) ≤ 100) ∧
    ∀ (to_float : ℚ → ℚ) (calculator : RNAPolyTailCalculator) (samples_per_base : ℚ)
      (w : Int × Int),
      signal_range to_float calculator 200 100 samples_per_base = some w → w.1 = 150 := by
  refine ⟨⟨by decide!, by decide⟩, ?_⟩
  intro to_float calculator samples_per_base w h
  rw [signal_range_start to_float calculator 200 100 samples_per_base w h]
  decide

/-- C10 (amended): whenever `anchor - 50`, `round(samples_per_base * max_tail_length)`
and their sum with the anchor are `int` values, `signal_range` returns
`max(0, anchor - 50)` and
`min(total_len, anchor + round(samples_per_base * max_tail_length))`.  The start
equals `anchor - 50` whenever that is not negative and the end equals
`anchor + round(...)` whenever that does not exceed `total_len`; the start is
never negative and the end never exceeds `total_len`; the start is at most
`total_len` when `anchor - 50` is, and the end is not negative when
`anchor + round(...)` and `total_len` are not. -/
theorem signal_range_clamps (to_float : ℚ → ℚ) (calculator : RNAPolyTailCalculator)
    (anchor total_len : Int) (samples_per_base : ℚ)
    (hk : INT_MIN ≤ spread to_float calculator samples_per_base ∧
      spread to_float calculator samples_per_base ≤ INT_MAX)
    (hlow : INT_MIN ≤ anchor - 50 ∧ anchor - 50 ≤ INT_MAX)
    (hhigh : INT_MIN ≤ anchor + spread to_float calculator samples_per_base ∧
      anchor + spread to_float calculator samples_per_base ≤ INT_MAX) :
    ∃ w : Int × Int,
      signal_range to_float calculator anchor total_len samples_per_base = some w ∧
      w = (max 0 (anchor - 50),
           min total_len (anchor + spread to_float calculator samples_per_base)) ∧
      (0 ≤ anchor - 50 → w.1 = anchor - 50) ∧
      (anchor + spread to_float calculator samples_per_base ≤ total_len →
        w.2 = anchor + spread to_float calculator samples_per_base) ∧
      0 ≤ w.1 ∧ w.2 ≤ total_len ∧
      (0 ≤ total_len → anchor - 50 ≤ total_len → w.1 ≤ total_len) ∧
      (0 ≤ total_len → 0 ≤ anchor + spread to_float calculator samples_per_base →
        0 ≤ w.2) := by
  refine ⟨_, signal_range_some to_float calculator anchor total_len samples_per_base hk hlow
    hhigh, rfl, ?_, ?_, ?_, ?_, ?_, ?_⟩ <;> simp only <;> omega

theorem spread_example : spread id example_calculator (3 / 2) = 1125 := by
  simp only [spread, round_half_away, example_calculator, id]
  norm_num

theorem signal_range_clamps_witness :
    ∃ w : Int × Int,
      signal_range id example_calculator 100 5000 (3 / 2) = some w ∧
      w = (max 0 (100 - 50), min 5000 (100 + spread id example_calculator (3 / 2))) ∧
      w.1 = 100 - 50 ∧ w.2 = 100 + spread id example_calculator (3 / 2) :=
  match signal_range_clamps id example_calculator 100 5000 (3 / 2)
      (by rw [spread_example]; decide) (by decide) (by rw [spread_example]; decide) with
  | ⟨w, h1, h2, h3, h4, _⟩ =>
    ⟨w, h1, h2, h3 (by decide), h4 (by rw [spread_example]; decide)⟩

/-! ## Theorems about the trims of `stitch_chunks` -/

theorem round_half_away_bounds (x : ℚ) (h0 : 0 ≤ x) (h1 : x ≤ 100) :
    0 ≤ round_half_away x ∧ round_half_away x ≤ 100 := by
  unfold round_half_away
  rw [if_pos h0]
  constructor
  · apply Int.floor_nonneg.mpr
    linarith
  · have h : x + 1 / 2 < ((101 : Int) : ℚ) := by
      push_cast
      linarith
    have := Int.floor_lt.mpr h
    omega

theorem round_half_away_hundred : round_half_away 100 = 100 := by
  unfold round_half_away
  rw [if_pos (by norm_num), Int.floor_eq_iff]
  constructor <;> norm_num

/-- C11: for every integer `signal_len`, with an exponential that is never
negative, `signal_length_adjustment signal_len` lies between 0 and 100; it is
`round(min(100, exp(5.6838 - 0.0021 * signal_len)))`, and 100 when the
exponential overflows. -/
theorem signal_length_adjustment_bounded (to_float : ℚ → ℚ) (expf : ℚ → Option ℚ)
    (hexp : ∀ x e, expf x = some e → 0 ≤ e) (signal_len : Int) :
    0 ≤ signal_length_adjustment to_float expf signal_len ∧
    signal_length_adjustment to_float expf signal_len ≤ 100 ∧
    (∀ e, expf (to_float (to_float (56838 / 10000)
        - to_float (to_float (21 / 10000) * to_float signal_len))) = some e →
      signal_length_adjustment to_float expf signal_len = round_half_away (min 100 e)) ∧
    (expf (to_float (to_float (56838 / 10000)
        - to_float (to_float (21 / 10000) * to_float signal_len))) = none →
      signal_length_adjustment to_float expf signal_len = 100) := by
  unfold signal_length_adjustment
  simp only
  generalize to_float (to_float (56838 / 10000)
      - to_float (to_float (21 / 10000) * to_float signal_len)) = argument
  cases he : expf argument with
  | none =>
    rw [round_half_away_hundred]
    refine ⟨by decide, by decide, ?_, fun _ => rfl⟩
    intro e h
    cases h
  | some e =>
    have h0 := hexp _ _ he
    simp only [Option.some.injEq]
    by_cases hlt : e < 100
    · rw [if_pos hlt]
      have h := round_half_away_bounds e h0 (le_of_lt hlt)
      refine ⟨h.1, h.2, ?_, fun h => by cases h⟩
      intro e2 he2
      subst he2
      rw [min_eq_right (le_of_lt hlt)]
    · rw [if_neg hlt]
      have h := round_half_away_bounds 100 (by norm_num) (le_refl _)
      refine ⟨h.1, h.2, ?_, fun h => by cases h⟩
      intro e2 he2
      subst he2
      rw [min_eq_left (not_lt.mp hlt)]

theorem signal_length_adjustment_bounded_witness :
    0 ≤ signal_length_adjustment id example_expf (-100000) ∧
    signal_length_adjustment id example_expf (-100000) ≤ 100 :=
  have h := signal_length_adjustment_bounded id example_expf
    (by
      intro x e he
      simp only [example_expf, Option.some.injEq] at he
      rw [← he]
      exact Even.pow_nonneg (by decide) _)
    (-100000)
  ⟨h.1, h.2.1⟩

theorem average_loop_spec (to_float : ℚ → ℚ) (q10 q90 : ℚ) :
    ∀ (sizes : List ℚ) (acc : ℚ × Int),
      average_loop to_float [q10, q90] sizes acc
        = some ((central q10 q90 sizes).foldl (fun a s => to_float (a + s)) acc.1,
                acc.2 + (central q10 q90 sizes).length)
  | [], acc => by simp [average_loop, central]
  | s :: rest, acc => by
    unfold average_loop average_step
    simp only [List.getElem?_cons_zero, List.getElem?_cons_succ]
    by_cases h0 : q10 ≤ s
    · by_cases h1 : s ≤ q90
      · simp only [h0, h1, if_true]
        rw [average_loop_spec to_float q10 q90 rest]
        simp only [central, List.filter_cons, h0, h1, and_self, decide_True, if_true,
          List.foldl_cons, List.length_cons]
        congr 2
        push_cast
        ring
      · simp only [h0, h1, if_true, if_false]
        rw [average_loop_spec to_float q10 q90 rest]
        simp [central, List.filter_cons, h0, h1]
    · simp only [h0, if_false]
      rw [average_loop_spec to_float q10 q90 rest]
      simp [central, List.filter_cons, h0]

theorem foldl_add_eq_sum (l : List ℚ) : ∀ acc : ℚ, l.foldl (fun a s => a + s) acc = acc + l.sum := by
  induction l with
  | nil => intro acc; simp
  | cons x xs ih => intro acc; simp [ih, add_assoc]

theorem mean_between (l : List ℚ) (lo hi : ℚ) (hne : l ≠ [])
    (h : ∀ x ∈ l, lo ≤ x ∧ x ≤ hi) :
    lo ≤ l.sum / l.length ∧ l.sum / l.length ≤ hi := by
  have hpos : (0 : ℚ) < l.length := by
    have : 0 < l.length := List.length_pos.mpr hne
    exact_mod_cast this
  have hsum : (l.length : ℚ) * lo ≤ l.sum ∧ l.sum ≤ (l.length : ℚ) * hi := by
    clear hne hpos
    induction l with
    | nil => simp
    | cons x xs ih =>
      have hx := h x (by simp)
      have := ih (fun y hy => h y (by simp [hy]))
      simp only [List.length_cons, List.sum_cons]
      push_cast
      constructor <;> nlinarith [this.1, this.2, hx.1, hx.2]
  constructor
  · rw [le_div_iff₀ hpos]
    linarith [hsum.1]
  · rw [div_le_iff₀ hpos]
    linarith [hsum.2]

/-- C12 (amended): when `utils::quantiles` returns the two quantiles `q10` and
`q90`, `average_samples_per_base` returns 0 if no observation `s` satisfies
`q10 ≤ s ≤ q90`, and otherwise the quotient, computed in `float` arithmetic, of
the running `float` sum of exactly those observations (in list order) by their
number.  In exact arithmetic this is their arithmetic mean and lies in
`[q10, q90]`. -/
theorem average_samples_per_base_central (to_float : ℚ → ℚ)
    (quantiles : List ℚ → List ℚ → List ℚ) (sizes : List ℚ) (q10 q90 : ℚ)
    (hq : quantiles sizes [to_float (1 / 10), to_float (9 / 10)] = [q10, q90]) :
    average_samples_per_base to_float quantiles sizes
      = some (if central q10 q90 sizes = [] then 0
          else to_float (float_sum to_float (central q10 q90 sizes)
            / to_float (central q10 q90 sizes).length)) ∧
    ((∀ x, to_float x = x) → central q10 q90 sizes ≠ [] →
      average_samples_per_base to_float quantiles sizes
        = some ((central q10 q90 sizes).sum / (central q10 q90 sizes).length) ∧
      q10 ≤ (central q10 q90 sizes).sum / (central q10 q90 sizes).length ∧
      (central q10 q90 sizes).sum / (central q10 q90 sizes).length ≤ q90) := by
  have main : average_samples_per_base to_float quantiles sizes
      = some (if central q10 q90 sizes = [] then 0
          else to_float (float_sum to_float (central q10 q90 sizes)
            / to_float (central q10 q90 sizes).length)) := by
    unfold average_samples_per_base
    simp only [hq, average_loop_spec, zero_add, Option.some.injEq]
    by_cases he : central q10 q90 sizes = []
    · simp [he]
    · have hpos : 0 < (central q10 q90 sizes).length := List.length_pos.mpr he
      have hpos2 : (0 : Int) < ((central q10 q90 sizes).length : Int) := by omega
      simp only [he, if_false, hpos2, if_true, float_sum]
      norm_cast
  refine ⟨main, ?_⟩
  intro hid hne
  have hmem : ∀ x ∈ central q10 q90 sizes, q10 ≤ x ∧ x ≤ q90 := by
    intro x hx
    simp only [central, List.mem_filter, decide_eq_true_eq] at hx
    exact hx.2
  have hfs : float_sum to_float (central q10 q90 sizes) = (central q10 q90 sizes).sum := by
    have : (fun (acc s : ℚ) => to_float (acc + s)) = (fun acc s => acc + s) := by
      funext acc s
      exact hid _
    unfold float_sum
    rw [this, foldl_add_eq_sum]
    simp
  refine ⟨?_, mean_between _ q10 q90 hne hmem⟩
  rw [main, if_neg hne, hid, hid, hfs]

theorem average_samples_per_base_central_witness :
    average_samples_per_base id (fun _ _ => [2, 5]) [1, 2, 3, 4, 5, 6]
      = some ((central 2 5 [1, 2, 3, 4, 5, 6]).sum / (central 2 5 [1, 2, 3, 4, 5, 6]).length) ∧
    (2 : ℚ) ≤ (central 2 5 [1, 2, 3, 4, 5, 6]).sum / (central 2 5 [1, 2, 3, 4, 5, 6]).length ∧
    (central 2 5 [1, 2, 3, 4, 5, 6]).sum / (central 2 5 [1, 2, 3, 4, 5, 6]).length ≤ (5 : ℚ) :=
  (average_samples_per_base_central id (fun _ _ => [2, 5]) [1, 2, 3, 4, 5, 6] 2 5 rfl).2
    (fun _ => rfl) (by decide!)

/-- C12 fails as stated: in binary32 arithmetic, for six observations all equal
to `1 + 2^-22` (so that both quantiles are `1 + 2^-22` and all six are
selected) the running sum is rounded at the fifth and sixth addition and the
result is `1 + 2^-23`, which is not their arithmetic mean and lies below
`q10`. -/
theorem average_samples_per_base_counterexample :
    central above_one above_one (List.replicate 6 above_one) = List.replicate 6 above_one ∧
    average_samples_per_base to_binary32 (fun _ _ => [above_one, above_one])
        (List.replicate 6 above_one) = some (8388609 / 8388608) ∧
    (8388609 / 8388608 : ℚ) < above_one ∧
    (List.replicate 6 above_one).sum / 6 = above_one := by
  refine ⟨by decide!, by decide!, by decide!, by decide!⟩

/-! ## Theorems about `update_progress_bar` -/

theorem to_int_some {x : ℚ} {v : Int} (h : to_int x = some v) : v = truncate x := by
  unfold to_int at h
  split at h
  · cases h; rfl
  · cases h

theorem to_int64_some {x : ℚ} {v : Int} (h : to_int64 x = some v) : v = truncate x := by
  unfold to_int64 at h
  split at h
  · cases h; rfl
  · cases h

theorem update_counters_spec (to_double : ℚ → ℚ) (stats : NamedStats)
    (t t1 : ProgressTracker) (h : update_counters to_double stats t = some t1) :
    t1.m_num_simplex_reads_written = truncate (to_double
      (fetch_stat stats "HtsWriter.unique_simplex_reads_written"
        + fetch_stat stats "BarcodeDemuxerNode.demuxed_reads_written")) ∧
    t1.m_num_simplex_reads_filtered
      = truncate (fetch_stat stats "ReadFilterNode.simplex_reads_filtered") ∧
    t1.m_num_simplex_bases_filtered
      = truncate (fetch_stat stats "ReadFilterNode.simplex_bases_filtered") ∧
    t1.m_num_simplex_bases_processed
      = truncate (fetch_stat stats "BasecallerNode.bases_processed") ∧
    t1.m_num_samples_processed
      = truncate (fetch_stat stats "BasecallerNode.samples_processed") ∧
    t1.m_num_samples_incl_padding
      = truncate (fetch_stat stats "BasecallerNode.samples_incl_padding") ∧
    t1.m_num_duplex_reads_written
      = truncate (fetch_stat stats "HtsWriter.duplex_reads_written") ∧
    t1.m_num_duplex_reads_filtered
      = truncate (fetch_stat stats "ReadFilterNode.duplex_reads_filtered") ∧
    t1.m_num_duplex_bases_filtered
      = truncate (fetch_stat stats "ReadFilterNode.duplex_bases_filtered") ∧
    t1.m_num_barcodes_demuxed
      = truncate (fetch_stat stats "BarcodeClassifierNode.num_barcodes_demuxed") ∧
    t1.m_num_poly_a_called = truncate (fetch_stat stats "PolyACalculator.reads_estimated") ∧
    t1.m_num_poly_a_not_called
      = truncate (fetch_stat stats "PolyACalculator.reads_not_estimated") ∧
    t1.m_avg_poly_a_tail_lengths
      = truncate (fetch_stat stats "PolyACalculator.average_tail_length") ∧
    (t.m_duplex = true → t1.m_num_duplex_bases_processed
      = truncate (fetch_stat stats "StereoBasecallerNode.bases_processed") ∧
      t1.m_num_bases_processed
        = t1.m_num_simplex_bases_processed + t1.m_num_duplex_bases_processed) ∧
    (t.m_duplex = false → t1.m_num_bases_processed = t1.m_num_simplex_bases_processed) ∧
    t1.m_duplex = t.m_duplex ∧ t1.m_num_reads_expected = t.m_num_reads_expected ∧
    t1.m_last_progress_written = t.m_last_progress_written := by
  unfold update_counters at h
  split at h
  · cases h
  rename_i a1 h1
  split at h
  · cases h
  rename_i a2 h2
  split at h
  · cases h
  rename_i a3 h3
  split at h
  · cases h
  rename_i a4 h4
  split at h
  · cases h
  rename_i a5 h5
  split at h
  · cases h
  rename_i a6 h6
  split at h
  · cases h
  rename_i a7 h7
  split at h
  · cases h
  rename_i a8 h8
  split at h
  · cases h
  rename_i a9 h9
  split at h
  · cases h
  rename_i a10 h10
  split at h
  · cases h
  rename_i a11 h11
  split at h
  · cases h
  rename_i a12 h12
  split at h
  · cases h
  rename_i a13 h13
  split at h
  · cases h
  rename_i a14 h14
  cases h
  refine ⟨to_int_some h1, to_int_some h2, to_int_some h3, to_int64_some h4, to_int64_some h5,
    to_int64_some h6, to_int_some h8, to_int_some h9, to_int_some h10, to_int_some h11,
    to_int_some h12, to_int_some h13, to_int_some h14, ?_, ?_, rfl, rfl, rfl⟩
  · intro hd
    unfold update_duplex_bases at h7
    rw [if_pos hd] at h7
    split at h7
    · cases h7
    · rename_i d hd2
      split at h7
      · cases h7
        exact ⟨to_int64_some hd2, rfl⟩
      · cases h7
  · intro hd
    unfold update_duplex_bases at h7
    simp only [hd, Bool.false_eq_true, if_false, Option.some.injEq] at h7
    rw [← h7]

theorem to_int_of_range {x : ℚ} (h : in_int_range x) : to_int x = some (truncate x) := by
  unfold to_int
  unfold in_int_range at h
  rw [if_pos h]

theorem update_progress_frame (to_float : ℚ → ℚ) (t0 t1 : ProgressTracker)
    (h : update_progress to_float t0 = some t1) :
    t1 = { t0 with m_last_progress_written := t1.m_last_progress_written } := by
  unfold update_progress at h
  split_ifs at h <;> cases h <;> rfl

theorem to_int64_of_range {x : ℚ} (h : in_int_range x) : to_int64 x = some (truncate x) := by
  unfold to_int64
  unfold in_int_range INT_MIN INT_MAX at h
  rw [if_pos (by unfold INT64_MIN INT64_MAX; omega)]

theorem truncate_zero : truncate 0 = 0 := by
  simp [truncate]

theorem update_counters_total (to_double : ℚ → ℚ) (stats : NamedStats) (t : ProgressTracker)
    (hsum : in_int_range (to_double (fetch_stat stats "HtsWriter.unique_simplex_reads_written"
      + fetch_stat stats "BarcodeDemuxerNode.demuxed_reads_written")))
    (hall : ∀ name, in_int_range (fetch_stat stats name)) :
    ∃ t1, update_counters to_double stats t = some t1 := by
  have hi : ∀ name, to_int (fetch_stat stats name) = some (truncate (fetch_stat stats name)) :=
    fun name => to_int_of_range (hall name)
  have hi64 : ∀ name,
      to_int64 (fetch_stat stats name) = some (truncate (fetch_stat stats name)) :=
    fun name => to_int64_of_range (hall name)
  have hd : ∃ b, update_duplex_bases stats t
      (truncate (fetch_stat stats "BasecallerNode.bases_processed")) = some b := by
    unfold update_duplex_bases
    by_cases hdup : t.m_duplex = true
    · have h1 := hall "BasecallerNode.bases_processed"
      have h2 := hall "StereoBasecallerNode.bases_processed"
      unfold in_int_range INT_MIN INT_MAX at h1 h2
      simp only [hdup, if_true, hi64]
      rw [if_pos (by unfold INT64_MIN INT64_MAX; omega)]
      exact ⟨_, rfl⟩
    · simp only [hdup, if_false]
      exact ⟨_, rfl⟩
  obtain ⟨b, hb⟩ := hd
  unfold update_counters
  simp only [to_int_of_range hsum, hi, hi64, hb]
  exact ⟨_, rfl⟩

/-- C13 (amended): `fetch_stat` returns 0 for a missing key and the stat's
value for a present one, and `update_progress_bar` does not fail on a missing
key; each counter it derives from a named stat equals the stat's value
converted to the integer type of the counter, that is with its fraction
dropped, when the key is present, and 0 when it is absent, so that an empty
snapshot sets all of them to 0; reads written is the sum of
`HtsWriter.unique_simplex_reads_written` and
`BarcodeDemuxerNode.demuxed_reads_written`, a missing term counted as 0,
converted to `int`. -/
theorem update_progress_bar_counters (to_double to_float : ℚ → ℚ) (is_fd_tty : Bool)
    (stats : NamedStats) (t : ProgressTracker) :
    (∀ name, stats.lookup name = none → fetch_stat stats name = 0) ∧
    (∀ name v, stats.lookup name = some v → fetch_stat stats name = v) ∧
    (in_int_range (to_double (fetch_stat stats "HtsWriter.unique_simplex_reads_written"
        + fetch_stat stats "BarcodeDemuxerNode.demuxed_reads_written")) →
      (∀ name v, stats.lookup name = some v → in_int_range v) →
      ∃ t1, update_counters to_double stats t = some t1) ∧
    (∀ t1, update_progress_bar to_double to_float is_fd_tty stats t = some t1 →
      t1.m_num_simplex_reads_written = truncate (to_double
        (fetch_stat stats "HtsWriter.unique_simplex_reads_written"
          + fetch_stat stats "BarcodeDemuxerNode.demuxed_reads_written")) ∧
      t1.m_num_simplex_reads_filtered
        = truncate (fetch_stat stats "ReadFilterNode.simplex_reads_filtered") ∧
      t1.m_num_simplex_bases_filtered
        = truncate (fetch_stat stats "ReadFilterNode.simplex_bases_filtered") ∧
      t1.m_num_simplex_bases_processed
        = truncate (fetch_stat stats "BasecallerNode.bases_processed") ∧
      t1.m_num_samples_processed
        = truncate (fetch_stat stats "BasecallerNode.samples_processed") ∧
      t1.m_num_samples_incl_padding
        = truncate (fetch_stat stats "BasecallerNode.samples_incl_padding") ∧
      t1.m_num_duplex_reads_written
        = truncate (fetch_stat stats "HtsWriter.duplex_reads_written") ∧
      t1.m_num_duplex_reads_filtered
        = truncate (fetch_stat stats "ReadFilterNode.duplex_reads_filtered") ∧
      t1.m_num_duplex_bases_filtered
        = truncate (fetch_stat stats "ReadFilterNode.duplex_bases_filtered") ∧
      t1.m_num_barcodes_demuxed
        = truncate (fetch_stat stats "BarcodeClassifierNode.num_barcodes_demuxed") ∧
      t1.m_num_poly_a_called = truncate (fetch_stat stats "PolyACalculator.reads_estimated") ∧
      t1.m_num_poly_a_not_called
        = truncate (fetch_stat stats "PolyACalculator.reads_not_estimated") ∧
      t1.m_avg_poly_a_tail_lengths
        = truncate (fetch_stat stats "PolyACalculator.average_tail_length") ∧
      (t.m_duplex = true → t1.m_num_duplex_bases_processed
        = truncate (fetch_stat stats "StereoBasecallerNode.bases_processed") ∧
        t1.m_num_bases_processed
          = t1.m_num_simplex_bases_processed + t1.m_num_duplex_bases_processed) ∧
      (t.m_duplex = false → t1.m_num_bases_processed = t1.m_num_simplex_bases_processed)) ∧
    (to_double 0 = 0 →
      ∃ t1, update_progress_bar to_double to_float is_fd_tty [] t = some t1 ∧
        t1.m_num_simplex_reads_written = 0 ∧ t1.m_num_simplex_reads_filtered = 0 ∧
        t1.m_num_simplex_bases_filtered = 0 ∧ t1.m_num_simplex_bases_processed = 0 ∧
        t1.m_num_samples_processed = 0 ∧ t1.m_num_samples_incl_padding = 0 ∧
        t1.m_num_duplex_reads_written = 0 ∧ t1.m_num_duplex_reads_filtered = 0 ∧
        t1.m_num_duplex_bases_filtered = 0 ∧ t1.m_num_barcodes_demuxed = 0 ∧
        t1.m_num_poly_a_called = 0 ∧ t1.m_num_poly_a_not_called = 0 ∧
        t1.m_avg_poly_a_tail_lengths = 0 ∧ t1.m_num_bases_processed = 0) := by
  have hmiss : ∀ (s : NamedStats) (name : String), s.lookup name = none → fetch_stat s name = 0 := by
    intro s name h
    simp [fetch_stat, h]
  have hpres : ∀ (name : String) (v : ℚ), stats.lookup name = some v →
      fetch_stat stats name = v := by
    intro name v h
    simp [fetch_stat, h]
  have h0 : in_int_range 0 := by
    unfold in_int_range
    rw [truncate_zero]
    decide
  have hinv : ∀ (s : NamedStats) (t1 : ProgressTracker),
      update_progress_bar to_double to_float is_fd_tty s t = some t1 →
      ∃ t0, update_counters to_double s t = some t0 ∧
        t1 = { t0 with m_last_progress_written := t1.m_last_progress_written } := by
    intro s t1 h
    unfold update_progress_bar at h
    cases h0 : update_counters to_double s t with
    | none => simp [h0] at h
    | some t0 =>
      simp only [h0] at h
      refine ⟨t0, rfl, ?_⟩
      split_ifs at h
      · cases h
        rfl
      · exact update_progress_frame to_float t0 t1 h
  refine ⟨hmiss stats, hpres, ?_, ?_, ?_⟩
  · intro hsum hall
    refine update_counters_total to_double stats t hsum ?_
    intro name
    cases hl : stats.lookup name with
    | none =>
      rw [hmiss stats name hl]
      exact h0
    | some v =>
      rw [hpres name v hl]
      exact hall name v hl
  · intro t1 h
    obtain ⟨t0, ht0, e⟩ := hinv stats t1 h
    have hs := update_counters_spec to_double stats t t0 ht0
    rw [e]
    exact ⟨hs.1, hs.2.1, hs.2.2.1, hs.2.2.2.1, hs.2.2.2.2.1, hs.2.2.2.2.2.1, hs.2.2.2.2.2.2.1,
      hs.2.2.2.2.2.2.2.1, hs.2.2.2.2.2.2.2.2.1, hs.2.2.2.2.2.2.2.2.2.1,
      hs.2.2.2.2.2.2.2.2.2.2.1, hs.2.2.2.2.2.2.2.2.2.2.2.1, hs.2.2.2.2.2.2.2.2.2.2.2.2.1,
      hs.2.2.2.2.2.2.2.2.2.2.2.2.2.1, hs.2.2.2.2.2.2.2.2.2.2.2.2.2.2.1⟩
  · intro hz
    have hf : ∀ name, fetch_stat ([] : NamedStats) name = 0 := fun name => hmiss [] name rfl
    obtain ⟨t0, ht0⟩ := update_counters_total to_double [] t
      (by rw [hf, hf, add_zero, hz]; exact h0) (by intro name; rw [hf]; exact h0)
    have hs := update_counters_spec to_double [] t t0 ht0
    simp only [hf, add_zero, hz, truncate_zero] at hs
    have hbases : t0.m_num_bases_processed = 0 := by
      by_cases hd : t.m_duplex = true
      · have := hs.2.2.2.2.2.2.2.2.2.2.2.2.2.1 hd
        rw [this.2, hs.2.2.2.1, this.1]
        rfl
      · have := hs.2.2.2.2.2.2.2.2.2.2.2.2.2.2.1 (by simpa using hd)
        rw [this, hs.2.2.2.1]
    have hprog : ∃ t1, update_progress_bar to_double to_float is_fd_tty [] t = some t1 := by
      unfold update_progress_bar
      rw [ht0]
      simp only
      split_ifs
      · exact ⟨_, rfl⟩
      · unfold update_progress
        rw [hs.1, hs.2.1]
        split_ifs
        · exact ⟨_, rfl⟩
        · exact ⟨_, rfl⟩
        · rename_i hbad
          exact absurd (by decide) hbad
        · exact ⟨_, rfl⟩
    obtain ⟨t1, ht1⟩ := hprog
    obtain ⟨t0', ht0', e⟩ := hinv [] t1 ht1
    rw [ht0] at ht0'
    cases ht0'
    refine ⟨t1, ht1, ?_⟩
    rw [e]
    exact ⟨hs.1, hs.2.1, hs.2.2.1, hs.2.2.2.1, hs.2.2.2.2.1, hs.2.2.2.2.2.1, hs.2.2.2.2.2.2.1,
      hs.2.2.2.2.2.2.2.1, hs.2.2.2.2.2.2.2.2.1, hs.2.2.2.2.2.2.2.2.2.1,
      hs.2.2.2.2.2.2.2.2.2.2.1, hs.2.2.2.2.2.2.2.2.2.2.2.1, hs.2.2.2.2.2.2.2.2.2.2.2.2.1,
      hbases⟩

theorem update_progress_bar_counters_witness :
    ∃ t1, update_progress_bar id id true [] example_tracker = some t1 ∧
      t1.m_num_simplex_reads_written = 0 ∧ t1.m_num_simplex_reads_filtered = 0 ∧
      t1.m_avg_poly_a_tail_lengths = 0 ∧ t1.m_num_bases_processed = 0 :=
  match (update_progress_bar_counters id id true [] example_tracker).2.2.2.2 rfl with
  | ⟨t1, h, h1, h2, _, _, _, _, _, _, _, _, _, _, h13, h14⟩ => ⟨t1, h, h1, h2, h13, h14⟩

/-- C13 fails as stated: for a snapshot in which
`PolyACalculator.average_tail_length` is present with the value 53.5, the
counter `m_avg_poly_a_tail_lengths` is set to 53, not to the stat's value. -/
theorem counter_truncation_counterexample :
    example_stats.lookup "PolyACalculator.average_tail_length" = some (107 / 2) ∧
    (update_progress_bar id id false example_stats example_tracker).map
      (fun t => t.m_avg_poly_a_tail_lengths) = some 53 ∧
    ((53 : Int) : ℚ) ≠ 107 / 2 := by
  refine ⟨by decide!, by decide!, by norm_num⟩

/-! ## Theorems about `WriterNode::worker_thread` -/

theorem report_progress_frame (cfg : WriterConfig) (st : WriterState) :
    (report_progress cfg st).cout = st.cout ∧
    (report_progress cfg st).error_log = st.error_log ∧
    (report_progress cfg st).m_num_reads_processed = st.m_num_reads_processed := by
  unfold report_progress
  split_ifs <;> exact ⟨rfl, rfl, rfl⟩

theorem write_read_spec (ext : WriterCollaborators) (cfg : WriterConfig) (st : WriterState)
    (read : WriterRead) :
    (write_read ext cfg st read).cout = st.cout ++ read_output ext cfg read ∧
    (write_read ext cfg st read).m_num_reads_processed = st.m_num_reads_processed + 1 := by
  unfold write_read read_output
  simp only
  split_ifs
  · simp [(report_progress_frame cfg _).1, (report_progress_frame cfg _).2.2]
  · simp [(report_progress_frame cfg _).1, (report_progress_frame cfg _).2.2]
  · split <;> simp [(report_progress_frame cfg _).1, (report_progress_frame cfg _).2.2]

theorem worker_thread_spec (ext : WriterCollaborators) (cfg : WriterConfig) :
    ∀ (queue : List WriterRead) (st : WriterState),
      (worker_thread ext cfg st queue).cout = st.cout ++ queue.flatMap (read_output ext cfg) ∧
      (worker_thread ext cfg st queue).m_num_reads_processed
        = st.m_num_reads_processed + queue.length
  | [], st => by simp [worker_thread]
  | read :: rest, st => by
    have ih := worker_thread_spec ext cfg rest (write_read ext cfg st read)
    have h := write_read_spec ext cfg st read
    unfold worker_thread at ih ⊢
    simp only [List.foldl_cons, List.flatMap_cons, List.length_cons]
    rw [ih.1, ih.2, h.1, h.2]
    constructor
    · simp [List.append_assoc]
    · push_cast
      ring

theorem worker_thread_append (ext : WriterCollaborators) (cfg : WriterConfig)
    (st : WriterState) (pre post : List WriterRead) :
    worker_thread ext cfg st (pre ++ post)
      = worker_thread ext cfg (worker_thread ext cfg st pre) post := by
  simp [worker_thread, List.foldl_append]

theorem worker_thread_error_log (ext : WriterCollaborators) (cfg : WriterConfig) :
    ∀ (queue : List WriterRead) (st : WriterState) (what : List Char),
      what ∈ st.error_log → what ∈ (worker_thread ext cfg st queue).error_log
  | [], st, what, h => by simpa [worker_thread] using h
  | read :: rest, st, what, h => by
    have ih := worker_thread_error_log ext cfg rest (write_read ext cfg st read) what
    unfold worker_thread at ih ⊢
    simp only [List.foldl_cons]
    apply ih
    unfold write_read
    simp only
    split_ifs
    · simpa [(report_progress_frame cfg _).2.1] using h
    · simpa [(report_progress_frame cfg _).2.1] using h
    · split
      · simpa [(report_progress_frame cfg _).2.1] using h
      · simp [(report_progress_frame cfg _).2.1, h]

/-- C14: in SAM output mode, when `extract_sam_lines` throws for a read that
passed the quality filter, `worker_thread` writes nothing to `std::cout` for
that read and passes the message of the exception to `spdlog::error`; it then
goes on through the rest of the queue: every read of the queue is counted, the
message stays in the log, and the output is the same as for the queue without
the failing read. -/
theorem failing_read_is_dropped (ext : WriterCollaborators) (cfg : WriterConfig)
    (st : WriterState) (pre post : List WriterRead) (bad : WriterRead) (what : List Char)
    (hsam : cfg.m_emit_fastq = false)
    (hpass : ¬ ext.mean_qscore_from_qstring (oriented cfg bad).qstring < cfg.m_min_qscore)
    (hthrow : ext.extract_sam_lines (oriented cfg bad) cfg.m_emit_moves cfg.m_duplex
      = Except.error what) :
    (∀ st1 : WriterState, (write_read ext cfg st1 bad).cout = st1.cout ∧
      (write_read ext cfg st1 bad).error_log = st1.error_log ++ [what]) ∧
    what ∈ (worker_thread ext cfg st (pre ++ bad :: post)).error_log ∧
    (worker_thread ext cfg st (pre ++ bad :: post)).m_num_reads_processed
      = st.m_num_reads_processed + (pre.length + 1 + post.length : Nat) ∧
    (worker_thread ext cfg st (pre ++ bad :: post)).cout
      = (worker_thread ext cfg st (pre ++ post)).cout := by
  have hout : read_output ext cfg bad = [] := by
    unfold read_output
    rw [if_neg hpass, hsam]
    simp [hthrow]
  have hbad : ∀ st1 : WriterState, (write_read ext cfg st1 bad).cout = st1.cout ∧
      (write_read ext cfg st1 bad).error_log = st1.error_log ++ [what] := by
    intro st1
    refine ⟨by rw [(write_read_spec ext cfg st1 bad).1, hout, List.append_nil], ?_⟩
    unfold write_read
    simp only
    rw [if_neg hpass, hsam]
    simp [hthrow, (report_progress_frame cfg _).2.1]
  refine ⟨hbad, ?_, ?_, ?_⟩
  · rw [worker_thread_append]
    have : worker_thread ext cfg (worker_thread ext cfg st pre) (bad :: post)
        = worker_thread ext cfg (write_read ext cfg (worker_thread ext cfg st pre) bad) post := by
      simp [worker_thread]
    rw [this]
    apply worker_thread_error_log
    rw [(hbad _).2]
    simp
  · rw [(worker_thread_spec ext cfg _ st).2]
    simp only [List.length_append, List.length_cons]
    push_cast
    ring
  · rw [(worker_thread_spec ext cfg _ st).1, (worker_thread_spec ext cfg _ st).1]
    simp [List.flatMap_append, hout]

theorem failing_read_is_dropped_witness :
    (worker_thread example_writer_collaborators example_writer example_writer_state
        ([example_writer_read ['A']] ++ example_writer_read [] :: [example_writer_read ['C']])).cout
      = (worker_thread example_writer_collaborators example_writer example_writer_state
        ([example_writer_read ['A']] ++ [example_writer_read ['C']])).cout :=
  (failing_read_is_dropped example_writer_collaborators example_writer example_writer_state
    [example_writer_read ['A']] [example_writer_read ['C']] (example_writer_read [])
    ['e', 'm', 'p', 't', 'y'] rfl
    (by simp [example_writer_collaborators, example_writer]) rfl).2.2.2

/-! ## Theorems about the barcode classifier -/

/-- C15: constructing a classifier succeeds for every kit name of the built-in
table alone and for all of them together, and fails for every list that holds
a kit name that is not in the table, such as `MY_RANDOM_KIT` when the table does
not hold it. -/
theorem classifier_construction (kit_table : List String) (barcode_both_ends : Bool) :
    (∀ kit_name ∈ kit_table,
      BarcodeClassifier.create kit_table [kit_name] barcode_both_ends
        = some { kit_names := [kit_name], barcode_both_ends := barcode_both_ends }) ∧
    BarcodeClassifier.create kit_table kit_table barcode_both_ends
      = some { kit_names := kit_table, barcode_both_ends := barcode_both_ends } ∧
    (∀ (kit_names : List String) (kit_name : String), kit_name ∈ kit_names →
      kit_name ∉ kit_table →
      BarcodeClassifier.create kit_table kit_names barcode_both_ends = none) ∧
    ("MY_RANDOM_KIT" ∉ kit_table →
      BarcodeClassifier.create kit_table ["MY_RANDOM_KIT"] barcode_both_ends = none) := by
  have hfail : ∀ (kit_names : List String) (kit_name : String), kit_name ∈ kit_names →
      kit_name ∉ kit_table →
      BarcodeClassifier.create kit_table kit_names barcode_both_ends = none := by
    intro kit_names kit_name hin hnot
    unfold BarcodeClassifier.create
    rw [if_neg]
    intro hall
    rw [List.all_eq_true] at hall
    have := hall kit_name hin
    exact hnot (by simpa using this)
  refine ⟨?_, ?_, hfail, fun h => hfail _ _ (by simp) h⟩
  · intro kit_name hin
    unfold BarcodeClassifier.create
    rw [if_pos]
    simp [hin]
  · unfold BarcodeClassifier.create
    rw [if_pos]
    rw [List.all_eq_true]
    intro k hk
    simpa using hk

theorem classifier_construction_witness :
    BarcodeClassifier.create example_kit_table ["SQK-RPB004"] false
      = some { kit_names := ["SQK-RPB004"], barcode_both_ends := false } ∧
    BarcodeClassifier.create example_kit_table ["MY_RANDOM_KIT"] false = none :=
  ⟨(classifier_construction example_kit_table false).1 "SQK-RPB004" (by decide),
    (classifier_construction example_kit_table false).2.2.2 (by decide)⟩

/-- C16: when the head and the tail of a read are both classified as the same
barcode `X`, the double-ended classifier returns `X`, as the single-ended one
does; when head and tail do not agree on one barcode, the double-ended
classifier returns `unclassified`, while the single-ended one returns the
barcode of a confident end if there is one. -/
theorem both_ends_policy (head tail : Option EndCall) :
    (∀ h t : EndCall, head = some h → tail = some t → h.adapter_name = t.adapter_name →
      barcode true head tail = h.adapter_name ∧
      barcode false head tail = barcode true head tail) ∧
    ((∀ h t : EndCall, head = some h → tail = some t → h.adapter_name ≠ t.adapter_name) →
      barcode true head tail = unclassified ∧
      ((head ≠ none ∨ tail ≠ none) →
        ∃ e : EndCall, (head = some e ∨ tail = some e) ∧
          barcode false head tail = e.adapter_name)) := by
  constructor
  · intro h t hh ht hsame
    subst hh ht
    simp only [barcode, if_true, hsame, Bool.false_eq_true, if_false]
    split_ifs <;> simp
  · intro hdis
    constructor
    · cases head with
      | none => simp [barcode]
      | some h =>
        cases tail with
        | none => simp [barcode]
        | some t =>
          have := hdis h t rfl rfl
          simp [barcode, this]
    · intro hsome
      cases head with
      | none =>
        cases tail with
        | none => simp at hsome
        | some t => exact ⟨t, Or.inr rfl, by simp [barcode]⟩
      | some h =>
        cases tail with
        | none => exact ⟨h, Or.inl rfl, by simp [barcode]⟩
        | some t =>
          by_cases hs : h.score < t.score
          · exact ⟨t, Or.inr rfl, by simp [barcode, hs]⟩
          · exact ⟨h, Or.inl rfl, by simp [barcode, hs]⟩

theorem both_ends_policy_witness :
    barcode true (some { adapter_name := "BC01", score := 9 / 10 })
        (some { adapter_name := "BC01", score := 8 / 10 }) = "BC01" ∧
    barcode true (some { adapter_name := "BC15", score := 9 / 10 })
        (some { adapter_name := "BC02", score := 8 / 10 }) = unclassified :=
  ⟨((both_ends_policy (some { adapter_name := "BC01", score := 9 / 10 })
        (some { adapter_name := "BC01", score := 8 / 10 })).1 _ _ rfl rfl rfl).1,
    ((both_ends_policy (some { adapter_name := "BC15", score := 9 / 10 })
        (some { adapter_name := "BC02", score := 8 / 10 })).2
      (by
        intro h t hh ht
        cases hh
        cases ht
        decide)).1⟩

/-! ## Theorems about the down-sampling factor and the bounds of `stitch_chunks` -/

theorem digit_not_space (c : Char) (h : c.isDigit = true) :
    isspace c = false ∧ c ≠ '-' ∧ c ≠ '+' := by
  simp only [Char.isDigit, Bool.and_eq_true, decide_eq_true_eq] at h
  have h1 : 48 ≤ c.toNat := h.1
  have h2 : c.toNat ≤ 57 := h.2
  have hc : c = Char.ofNat c.toNat := (Char.ofNat_toNat c).symm
  generalize c.toNat = n at h1 h2 hc
  subst hc
  interval_cases n <;> decide

theorem span_until {p : Char → Bool} (after : List Char)
    (hafter : ∀ x r, after = x :: r → p x = false) :
    ∀ (l : List Char), (∀ c ∈ l, p c = true) →
      (l ++ after).takeWhile p = l ∧ (l ++ after).dropWhile p = after
  | [], _ => by
    cases after with
    | nil => simp
    | cons x r => simp [List.takeWhile, List.dropWhile, hafter x r rfl]
  | a :: l, hl => by
    have ha : p a = true := hl a (by simp)
    have ih := span_until after hafter l (fun c hc => hl c (by simp [hc]))
    simp [List.takeWhile, List.dropWhile, ha, ih.1, ih.2]

theorem extract_int_text (s after : List Char) (cur : Int) (h : is_int_text s)
    (hafter : ∀ x r, after = x :: r → x.isDigit = false) :
    extract_int { buf := '\t' :: (s ++ after), eofbit := false, failbit := false } cur
      = ({ buf := after, eofbit := after.isEmpty, failbit := false }, int_text_value s) := by
  obtain ⟨hne, hdig, hmin, hmax⟩ := h
  cases s with
  | nil => exact absurd rfl hne
  | cons c t =>
    by_cases hm : c = '-'
    · subst hm
      have e1 : int_text_digits ('-' :: t) = t := rfl
      have e2 : int_text_value ('-' :: t) = -(digits_value t : Int) := rfl
      rw [e1] at hne hdig
      rw [e2] at hmin hmax ⊢
      have hsp := span_until after hafter t hdig
      unfold extract_int
      rw [List.cons_append, sentry_tab '-' _ (by decide)]
      simp only [List.head?_cons, beq_self_eq_true, Bool.true_or, if_true, List.tail_cons, hsp.1,
        hsp.2]
      cases t with
      | nil => exact absurd rfl hne
      | cons d t2 =>
        simp only [List.isEmpty_cons, Bool.false_eq_true, if_false]
        rw [if_neg (by omega), if_neg (by omega)]
    · by_cases hp : c = '+'
      · subst hp
        have e1 : int_text_digits ('+' :: t) = t := rfl
        have e2 : int_text_value ('+' :: t) = (digits_value t : Int) := rfl
        rw [e1] at hne hdig
        rw [e2] at hmin hmax ⊢
        have hsp := span_until after hafter t hdig
        unfold extract_int
        rw [List.cons_append, sentry_tab '+' _ (by decide)]
        have h1 : (some '+' == some '-') = false := by decide
        simp only [List.head?_cons, h1, beq_self_eq_true, Bool.or_true, Bool.false_or, if_true,
          List.tail_cons, hsp.1, hsp.2, Bool.false_eq_true, if_false]
        cases t with
        | nil => exact absurd rfl hne
        | cons d t2 =>
          simp only [List.isEmpty_cons, Bool.false_eq_true, if_false]
          rw [if_neg (by omega), if_neg (by omega)]
      · have h1 : (some c == some '-') = false := by simp [hm]
        have h2 : (some c == some '+') = false := by simp [hp]
        have e1 : int_text_digits (c :: t) = c :: t := by
          simp [int_text_digits, h1, h2]
        have e2 : int_text_value (c :: t) = (digits_value (c :: t) : Int) := by
          simp [int_text_value, h1, e1]
        rw [e1] at hdig
        rw [e2] at hmin hmax ⊢
        have hsp := span_until after hafter (c :: t) hdig
        have hcs := (digit_not_space c (hdig c (by simp))).1
        unfold extract_int
        rw [List.cons_append, sentry_tab c _ hcs]
        simp only [List.head?_cons, h1, h2, Bool.or_self, Bool.false_eq_true, if_false]
        rw [← List.cons_append, hsp.1, hsp.2]
        simp only [List.isEmpty_cons, Bool.false_eq_true, if_false]
        rw [if_neg (by omega), if_neg (by omega)]

theorem extract_int_text_tab (s rest : List Char) (cur : Int) (h : is_int_text s) :
    extract_int { buf := '\t' :: (s ++ '\t' :: rest), eofbit := false, failbit := false } cur
      = ({ buf := '\t' :: rest, eofbit := false, failbit := false }, int_text_value s) :=
  extract_int_text s ('\t' :: rest) cur h (by
    intro x r hx
    simp only [List.cons.injEq] at hx
    rw [← hx.1]
    decide)

theorem extract_int_text_end (s : List Char) (cur : Int) (h : is_int_text s) :
    extract_int { buf := '\t' :: s, eofbit := false, failbit := false } cur
      = ({ buf := [], eofbit := true, failbit := false }, int_text_value s) := by
  have := extract_int_text s [] cur h (by intro x r hx; cases hx)
  simpa using this

theorem parse_field_texts (entry : PafEntry) (f : FieldTexts) (hf : f.well_formed) :
    (∀ T : List Char,
      parse_paf entry (f.line ++ '\t' :: T) = f.entry (strip_tab
        (getline { buf := '\t' :: T, eofbit := false, failbit := false } entry.aux).2)) ∧
    parse_paf entry f.line = f.entry (strip_tab entry.aux) := by
  obtain ⟨h1, h2, h3, h4, h5, h6, h7, h8, h9, h10, h11, h12⟩ := hf
  constructor
  · intro T
    unfold parse_paf parse_paf_stream IStream.ofString FieldTexts.line FieldTexts.entry
    simp only [List.append_assoc, List.cons_append, extract_string_here _ _ _ h1.1 h1.2,
      extract_int_text_tab _ _ _ h2, extract_int_text_tab _ _ _ h3,
      extract_int_text_tab _ _ _ h4, extract_char_tab _ _ _ h5,
      extract_string_tab _ _ _ h6.1 h6.2, extract_int_text_tab _ _ _ h7,
      extract_int_text_tab _ _ _ h8, extract_int_text_tab _ _ _ h9,
      extract_int_text_tab _ _ _ h10, extract_int_text_tab _ _ _ h11,
      extract_int_text_tab _ _ _ h12]
  · unfold parse_paf parse_paf_stream IStream.ofString FieldTexts.line FieldTexts.entry
    simp only [extract_string_here _ _ _ h1.1 h1.2,
      extract_int_text_tab _ _ _ h2, extract_int_text_tab _ _ _ h3,
      extract_int_text_tab _ _ _ h4, extract_char_tab _ _ _ h5,
      extract_string_tab _ _ _ h6.1 h6.2, extract_int_text_tab _ _ _ h7,
      extract_int_text_tab _ _ _ h8, extract_int_text_tab _ _ _ h9,
      extract_int_text_tab _ _ _ h10, extract_int_text_tab _ _ _ h11,
      extract_int_text_end _ _ h12]
    simp [getline, IStream.good]

/-- C22: for every input line made of 12 well-formed fields (names that are
not empty and hold no white space, a strand that is not white space, numbers of
an optional sign and decimal digits in the range of `int`) followed by a tab
and a tag text `T` without a newline, `parse_paf` returns `aux = T`: only the
separating tab is removed, whatever `T` starts with or contains; for the line
that ends right after the 12th field, `aux` is the empty string of the
default-constructed entry.  In both cases the 12 fields come back with the
values that their texts denote. -/
theorem parse_paf_aux (entry : PafEntry) (f : FieldTexts) (T : List Char)
    (hf : f.well_formed) (hT : ∀ c ∈ T, c ≠ '\n') (hdef : entry.aux = []) :
    (parse_paf entry (f.line ++ '\t' :: T)).aux = T ∧
    (parse_paf entry f.line).aux = [] ∧
    parse_paf entry (f.line ++ '\t' :: T) = f.entry T ∧
    parse_paf entry f.line = f.entry [] := by
  obtain ⟨p1, p2⟩ := parse_field_texts entry f hf
  have e1 : parse_paf entry (f.line ++ '\t' :: T) = f.entry T := by
    rw [p1 T, getline_tab _ _ hT]
    rfl
  have e2 : parse_paf entry f.line = f.entry [] := by
    rw [p2, hdef]
    rfl
  exact ⟨by rw [e1]; rfl, by rw [e2]; rfl, e1, e2⟩

theorem parse_paf_aux_witness :
    (parse_paf { example_entry with aux := [] }
      (example_texts.line ++ '\t' :: ['\t', 'a', ' ', 'b'])).aux = ['\t', 'a', ' ', 'b'] ∧
    (parse_paf { example_entry with aux := [] } example_texts.line).aux = [] ∧
    (parse_paf { example_entry with aux := [] } example_texts.line).qlen = 100 ∧
    (parse_paf { example_entry with aux := [] } example_texts.line).qend = 90 ∧
    (parse_paf { example_entry with aux := [] } example_texts.line).tstart = -1 :=
  match parse_paf_aux { example_entry with aux := [] } example_texts ['\t', 'a', ' ', 'b']
      (by unfold FieldTexts.well_formed is_name_text is_int_text; decide) (by decide) rfl with
  | ⟨h1, h2, _, h4⟩ => ⟨h1, h2, by rw [h4]; rfl, by rw [h4]; rfl, by rw [h4]; rfl⟩

/-! ## Theorems about `paf_aux_get` -/

theorem starts_before (x : Char) (y : List Char) :
    ∀ (v t : List Char), x ∉ t → t <+: v ++ x :: y → t <+: v
  | _, [], _, _ => List.nil_prefix
  | [], h :: t, hx, hp => by
    simp only [List.nil_append, List.cons_prefix_cons] at hp
    exact absurd (by simp [hp.1]) hx
  | c :: v, h :: t, hx, hp => by
    simp only [List.cons_append, List.cons_prefix_cons] at hp
    rw [List.cons_prefix_cons]
    exact ⟨hp.1, starts_before x y v t (fun hm => hx (by simp [hm])) hp.2⟩

theorem find_value (t y : List Char) (hne : t ≠ []) (htab : '\t' ∉ t) :
    ∀ v : List Char, ¬ t <:+: v →
      find v t = none ∧
      find (v ++ '\t' :: y) t = (find y t).map (fun i => i + (v.length + 1))
  | [], _ => by
    have h1 : t.isEmpty = false := by
      cases t with
      | nil => exact absurd rfl hne
      | cons a l => rfl
    have h2 : t.isPrefixOf ('\t' :: y) = false := by
      rw [← Bool.not_eq_true, List.isPrefixOf_iff_prefix]
      intro hp
      have := starts_before '\t' y [] t htab (by simpa using hp)
      have := List.prefix_nil.mp this
      exact hne this
    simp [find, h1, h2]
  | c :: v, hno => by
    have hno2 : ¬ t <:+: v := fun h => hno (h.trans (List.suffix_cons c v).isInfix)
    obtain ⟨i1, i2⟩ := find_value t y hne htab v hno2
    have h1 : t.isPrefixOf (c :: v) = false := by
      rw [← Bool.not_eq_true, List.isPrefixOf_iff_prefix]
      exact fun hp => hno hp.isInfix
    have h2 : t.isPrefixOf (c :: (v ++ '\t' :: y)) = false := by
      rw [← Bool.not_eq_true, List.isPrefixOf_iff_prefix]
      intro hp
      exact hno (starts_before '\t' y (c :: v) t htab hp).isInfix
    constructor
    · simp [find, h1, i1]
    · have e : find (c :: (v ++ '\t' :: y)) t
          = if t.isPrefixOf (c :: (v ++ '\t' :: y)) then some 0
            else (find (v ++ '\t' :: y) t).map (fun i => i + 1) := rfl
      rw [List.cons_append, e, h2, i2]
      cases find y t with
      | none => rfl
      | some i =>
        simp only [Bool.false_eq_true, if_false, Option.map_some', Option.some.injEq,
          List.length_cons]
        omega

theorem find_char_shift (ch : Char) (y : List Char) (q : Nat) :
    ∀ x : List Char,
      find_char (x ++ y) ch (q + x.length) = (find_char y ch q).map (fun i => i + x.length)
  | [] => by simp
  | c :: x => by
    have ih := find_char_shift ch y q x
    have e : find_char (c :: (x ++ y)) ch (q + x.length + 1)
        = (find_char (x ++ y) ch (q + x.length)).map (fun i => i + 1) := rfl
    rw [List.cons_append, List.length_cons, ← Nat.add_assoc, e, ih]
    cases find_char y ch q with
    | none => rfl
    | some i =>
      simp only [Option.map_some', Option.some.injEq]
      omega

theorem value_from_shift (y : List Char) (q : Nat) (x : List Char) :
    value_from (x ++ y) (q + x.length) = value_from y q := by
  unfold value_from
  rw [find_char_shift]
  have hd : (x ++ y).drop (q + x.length) = y.drop q := by
    rw [Nat.add_comm, ← List.drop_drop, List.drop_left]
  have hl : (((x ++ y).length : Nat) : Int) < ((q + x.length : Nat) : Int)
      ↔ (y.length : Int) < (q : Int) := by
    rw [List.length_append]
    push_cast
    omega
  have hq : ¬ ((q + x.length : Nat) : Int) < 0 := by omega
  have hq2 : ¬ (q : Int) < 0 := by omega
  cases find_char y '\t' q with
  | none =>
    simp only [Option.map_none', substr_from, Int.toNat_ofNat, hd, hl, hq, hq2, false_or]
  | some i =>
    have e : ((i + x.length : Nat) : Int) - ((q + x.length : Nat) : Int) = (i : Int) - q := by
      push_cast
      omega
    simp only [Option.map_some', substr, Int.toNat_ofNat, hd, hl, hq, hq2, false_or, e]

theorem find_char_value (y : List Char) :
    ∀ v : List Char, '\t' ∉ v →
      find_char v '\t' 0 = none ∧ find_char (v ++ '\t' :: y) '\t' 0 = some v.length
  | [], _ => by simp [find_char]
  | c :: v, h => by
    have hc : c ≠ '\t' := fun e => h (by simp [e])
    obtain ⟨i1, i2⟩ := find_char_value y v (fun hm => h (by simp [hm]))
    constructor
    · simp [find_char, hc, i1]
    · have e : find_char (c :: (v ++ '\t' :: y)) '\t' 0
          = if c = '\t' then some 0
            else (find_char (v ++ '\t' :: y) '\t' 0).map (fun i => i + 1) := rfl
      rw [List.cons_append, e, if_neg hc, i2]
      rfl

theorem value_from_value (y v : List Char) (h : '\t' ∉ v) :
    value_from v 0 = some v ∧ value_from (v ++ '\t' :: y) 0 = some v := by
  obtain ⟨i1, i2⟩ := find_char_value y v h
  unfold value_from
  rw [i1, i2]
  have h0 : (0 : Int) ≤ (v.length : Int) + ((y.length : Int) + 1) := by omega
  simp [substr, substr_from, h0]

theorem find_head (a b type t0 t1 ty : Char) (w : List Char) (ha : a ≠ ':') (hb : b ≠ ':')
    (hf : ¬ (t0 = a ∧ t1 = b ∧ ty = type)) :
    find (t0 :: t1 :: ':' :: ty :: ':' :: w) [a, b, ':', type, ':']
      = (find w [a, b, ':', type, ':']).map (fun i => i + 5) := by
  have h0 : [a, b, ':', type, ':'].isPrefixOf (t0 :: t1 :: ':' :: ty :: ':' :: w) = false := by
    simp only [List.isPrefixOf, Bool.and_eq_false_imp, beq_iff_eq, Bool.and_true]
    intro e1 e2 _ e3
    exact absurd ⟨e1.symm, e2.symm, e3.symm⟩ hf
  have h1 : [a, b, ':', type, ':'].isPrefixOf (t1 :: ':' :: ty :: ':' :: w) = false := by
    simp [List.isPrefixOf, hb]
  have h2 : [a, b, ':', type, ':'].isPrefixOf (':' :: ty :: ':' :: w) = false := by
    simp [List.isPrefixOf, ha]
  have h3 : [a, b, ':', type, ':'].isPrefixOf (ty :: ':' :: w) = false := by
    simp [List.isPrefixOf, hb]
  have h4 : [a, b, ':', type, ':'].isPrefixOf (':' :: w) = false := by
    simp [List.isPrefixOf, ha]
  simp only [find, h0, h1, h2, h3, h4, Bool.false_eq_true, if_false, Option.map_map]
  cases find w [a, b, ':', type, ':'] <;> rfl

theorem find_char_spec (ch : Char) :
    ∀ (s : List Char) (q : Nat),
      (find_char s ch q = none → ch ∉ s.drop q) ∧
      (∀ e, find_char s ch q = some e → q ≤ e ∧ ch ∉ (s.drop q).take (e - q))
  | [], _ => by simp [find_char]
  | c :: s, 0 => by
    obtain ⟨ih1, ih2⟩ := find_char_spec ch s 0
    by_cases hc : c = ch
    · simp [find_char, hc]
    · have hc2 : ¬ ch = c := fun e => hc e.symm
      simp only [find_char, if_neg hc, List.drop_zero, Nat.sub_zero, Nat.zero_le, true_and]
      constructor
      · intro h
        have : find_char s ch 0 = none := by
          cases hx : find_char s ch 0 with
          | none => rfl
          | some i => rw [hx] at h; cases h
        simpa [hc2] using ih1 this
      · intro e h
        cases hx : find_char s ch 0 with
        | none => rw [hx] at h; cases h
        | some i =>
          rw [hx] at h
          simp only [Option.map_some', Option.some.injEq] at h
          subst h
          simpa [hc2] using (ih2 i hx).2
  | c :: s, q + 1 => by
    obtain ⟨ih1, ih2⟩ := find_char_spec ch s q
    simp only [find_char, List.drop_succ_cons]
    constructor
    · intro h
      apply ih1
      cases hx : find_char s ch q with
      | none => rfl
      | some i => rw [hx] at h; cases h
    · intro e h
      cases hx : find_char s ch q with
      | none => rw [hx] at h; cases h
      | some i =>
        rw [hx] at h
        simp only [Option.map_some', Option.some.injEq] at h
        subst h
        have := ih2 i hx
        refine ⟨by omega, ?_⟩
        have e2 : i + 1 - (q + 1) = i - q := by omega
        rw [e2]
        exact this.2

theorem value_from_no_tab (aux : List Char) (pos : Nat) (v : List Char)
    (h : value_from aux pos = some v) : '\t' ∉ v := by
  obtain ⟨h1, h2⟩ := find_char_spec '\t' aux pos
  unfold value_from at h
  cases hx : find_char aux '\t' pos with
  | none =>
    rw [hx] at h
    simp only [substr_from] at h
    split at h
    · cases h
    · simp only [Int.toNat_ofNat, Option.some.injEq] at h
      subst h
      exact h1 hx
  | some e =>
    rw [hx] at h
    obtain ⟨hle, hno⟩ := h2 e hx
    simp only [substr] at h
    split at h
    · cases h
    · rw [if_neg (by omega)] at h
      simp only [Int.toNat_ofNat, Option.some.injEq] at h
      subst h
      have e2 : ((e : Int) - (pos : Int)).toNat = e - pos := by omega
      rw [e2]
      exact hno

/-- The lookup of `paf_aux_get` for a pattern that holds no NUL. -/
theorem paf_aux_get_eq (e : PafEntry) (a b type : Char) (ha : a ≠ Char.ofNat 0)
    (hb : b ≠ Char.ofNat 0) (ht : type ≠ Char.ofNat 0) :
    paf_aux_get e [a, b] type =
      match find e.aux [a, b, ':', type, ':'] with
      | none => some []
      | some pos => value_from e.aux (pos + 5) := by
  have ha2 : (a != Char.ofNat 0) = true := by simpa using ha
  have hb2 : (b != Char.ofNat 0) = true := by simpa using hb
  have ht2 : (type != Char.ofNat 0) = true := by simpa using ht
  have hc : (':' != Char.ofNat 0) = true := by decide
  have h1 : c_str [a, b] = [a, b] := by simp only [c_str, List.takeWhile, ha2, hb2]
  have h2 : c_str [a, b, ':', type, ':'] = [a, b, ':', type, ':'] := by
    simp only [c_str, List.takeWhile, ha2, hb2, ht2, hc]
  simp only [paf_aux_get, h1, List.cons_append, List.nil_append, h2]

theorem lookup_fields (a b type : Char) (ha : a ≠ ':' ∧ a ≠ '\t') (hb : b ≠ ':' ∧ b ≠ '\t')
    (ht : type ≠ '\t') :
    ∀ fields : List AuxField,
      (∀ f ∈ fields, '\t' ∉ f.value) →
      (∀ f ∈ fields.takeWhile (fun f => !f.has a b type),
        ¬ [a, b, ':', type, ':'] <:+: f.value) →
      (match find (join_fields fields) [a, b, ':', type, ':'] with
        | none => some []
        | some pos => value_from (join_fields fields) (pos + 5))
        = some (first_value fields a b type)
  | [], _, _ => by simp [join_fields, find, first_value]
  | [f], hval, hno => by
    have hv := hval f (by simp)
    by_cases hf : f.has a b type = true
    · have hf2 := hf
      simp only [AuxField.has, Bool.and_eq_true, beq_iff_eq] at hf2
      obtain ⟨⟨e0, e1⟩, e2⟩ := hf2
      have hfind : find (join_fields [f]) [a, b, ':', type, ':'] = some 0 := by
        simp [join_fields, AuxField.text, find, List.isPrefixOf, e0, e1, e2]
      have hshift := value_from_shift f.value 0 [f.tag0, f.tag1, ':', f.type, ':']
      rw [hfind]
      simp only [join_fields, AuxField.text, first_value, List.find?, hf, List.cons_append,
        Nat.zero_add]
      exact hshift.trans (value_from_value [] f.value hv).1
    · have hf2 := hf
      simp only [AuxField.has, Bool.and_eq_true, beq_iff_eq, and_assoc] at hf2
      have hnof := hno f (by simp [hf])
      have htab : '\t' ∉ [a, b, ':', type, ':'] := by
        simp [ha.2.symm, hb.2.symm, ht.symm]
      have hv0 := (find_value [a, b, ':', type, ':'] [] (by simp) htab f.value hnof).1
      simp only [join_fields, AuxField.text, find_head a b type _ _ _ _ ha.1 hb.1 hf2, hv0,
        Option.map_none', first_value, List.find?, hf]
  | f :: g :: rest, hval, hno => by
    have hv := hval f (by simp)
    by_cases hf : f.has a b type = true
    · have hf2 := hf
      simp only [AuxField.has, Bool.and_eq_true, beq_iff_eq] at hf2
      obtain ⟨⟨e0, e1⟩, e2⟩ := hf2
      have hfind : find (join_fields (f :: g :: rest)) [a, b, ':', type, ':'] = some 0 := by
        simp [join_fields, AuxField.text, find, List.isPrefixOf, e0, e1, e2]
      have hshift := value_from_shift (f.value ++ '\t' :: join_fields (g :: rest)) 0
        [f.tag0, f.tag1, ':', f.type, ':']
      rw [hfind]
      simp only [join_fields, AuxField.text, first_value, List.find?, hf, List.cons_append,
        Nat.zero_add]
      exact hshift.trans (value_from_value _ f.value hv).2
    · have hf2 := hf
      simp only [AuxField.has, Bool.and_eq_true, beq_iff_eq, and_assoc] at hf2
      have hnof := hno f (by simp [hf])
      have htab : '\t' ∉ [a, b, ':', type, ':'] := by
        simp [ha.2.symm, hb.2.symm, ht.symm]
      have hv1 := (find_value [a, b, ':', type, ':'] (join_fields (g :: rest)) (by simp) htab
        f.value hnof).2
      have ih := lookup_fields a b type ha hb ht (g :: rest)
        (fun x hx => hval x (by simp [hx]))
        (fun x hx => hno x (by
          simp only [List.takeWhile, hf]
          simpa using Or.inr hx))
      have hfv : first_value (f :: g :: rest) a b type = first_value (g :: rest) a b type := by
        simp [first_value, List.find?, hf]
      rw [hfv, ← ih]
      simp only [join_fields, AuxField.text, List.cons_append,
        find_head a b type _ _ _ _ ha.1 hb.1 hf2, hv1, Option.map_map]
      cases hx : find (join_fields (g :: rest)) [a, b, ':', type, ':'] with
      | none => rfl
      | some p =>
        have hshift := value_from_shift (join_fields (g :: rest)) (p + 5)
          (f.tag0 :: f.tag1 :: ':' :: f.type :: ':' :: (f.value ++ ['\t']))
        simp only [Option.map_some', Function.comp_apply]
        simp only [List.length_cons, List.length_append, List.length_nil, List.cons_append,
          List.append_assoc, List.nil_append] at hshift
        rw [← hshift]
        congr 1
        omega

/-- C25 fails as stated: in the tag string `cm:Z:tp:A:P<tab>tp:A:S` the first
field whose tag is `tp` and whose type is `A` has the VALUE `S`, but
`paf_aux_get` finds the text `tp:A:` inside the VALUE of the field `cm` and
returns `P`; with the field `cm` alone no field has the tag `tp`, and
`paf_aux_get` returns `P` again instead of an empty view. -/
theorem paf_aux_get_counterexample :
    (paf_aux_get { example_entry with aux := join_fields nested_fields } ['t', 'p'] 'A'
        = some ['P'] ∧
      first_value nested_fields 't' 'p' 'A' = ['S']) ∧
    (paf_aux_get { example_entry with aux := join_fields (nested_fields.take 1) } ['t', 'p'] 'A'
        = some ['P'] ∧
      (nested_fields.take 1).find? (fun f => f.has 't' 'p' 'A') = none) := by
  decide

/-- C25 (amended): for a `PafEntry` whose `aux` is a tab-separated list of
`TAG:TYPE:VALUE` fields (no VALUE holds a tab) and a two-character tag and a
type that are not NUL or tab characters, the tag without a colon,
`paf_aux_get` returns the VALUE of the first field whose tag and type equal the
arguments, and an empty view when no field has that tag and type, provided that
no field before that first field (no field at all when there is none) holds
the text `TAG:TYPE:` inside its VALUE.  Whatever `aux`, tag and type are, a
returned view never contains a tab. -/
theorem paf_aux_get_first_field (e : PafEntry) (fields : List AuxField) (a b type : Char)
    (haux : e.aux = join_fields fields)
    (hval : ∀ f ∈ fields, '\t' ∉ f.value)
    (ha : a ≠ ':' ∧ a ≠ '\t' ∧ a ≠ Char.ofNat 0)
    (hb : b ≠ ':' ∧ b ≠ '\t' ∧ b ≠ Char.ofNat 0)
    (ht : type ≠ '\t' ∧ type ≠ Char.ofNat 0)
    (hno : ∀ f ∈ fields.takeWhile (fun f => !f.has a b type),
      ¬ [a, b, ':', type, ':'] <:+: f.value) :
    paf_aux_get e [a, b] type = some (first_value fields a b type) ∧
    (∀ (e2 : PafEntry) (tag : List Char) (ty : Char) (v : List Char),
      paf_aux_get e2 tag ty = some v → '\t' ∉ v) := by
  constructor
  · rw [paf_aux_get_eq e a b type ha.2.2 hb.2.2 ht.2, haux]
    exact lookup_fields a b type ⟨ha.1, ha.2.1⟩ ⟨hb.1, hb.2.1⟩ ht.1 fields hval hno
  · intro e2 tag ty v h
    simp only [paf_aux_get] at h
    split at h
    · simp only [Option.some.injEq] at h
      subst h
      simp
    · exact value_from_no_tab _ _ v h

theorem paf_aux_get_first_field_witness :
    paf_aux_get example_entry ['c', 'm'] 'i' = some ['5'] ∧
    paf_aux_get example_entry ['N', 'M'] 'i' = some [] :=
  ⟨(paf_aux_get_first_field example_entry example_fields 'c' 'm' 'i' (by decide) (by decide)
      (by decide) (by decide) (by decide) (by decide)).1,
    (paf_aux_get_first_field example_entry example_fields 'N' 'M' 'i' (by decide) (by decide)
      (by decide) (by decide) (by decide) (by decide)).1⟩

/-! ## Theorems about the bounds of the anchor lookup and of `signal_range` -/

/-- C26 at a failing input: for the read of ten bases that ends with the
adapter, a window of six bases and an offset of seven, the alignment is
accepted and the map has `len + 1 = 11` entries, but `base_anchor` is
`4 + 2 - 7 = -1`, the index `len - base_anchor` is `11`, and the lookup is out
of bounds. -/
theorem anchor_lookup_out_of_bounds :
    accepted (example_collaborators 0) long_offset_calculator example_simplex_read = true ∧
    (seq_to_sig_map (example_collaborators 0) example_simplex_read).length
      = example_simplex_read.seq.length + 1 ∧
    adapter_alignment (example_collaborators 0) long_offset_calculator example_simplex_read
      = some { editDistance := 0, startLocations := [2] } ∧
    base_anchor long_offset_calculator example_simplex_read 2 = -1 ∧
    (example_simplex_read.seq.length : Int)
      - base_anchor long_offset_calculator example_simplex_read 2 = 11 ∧
    (seq_to_sig_map (example_collaborators 0) example_simplex_read)[11]? = none ∧
    determine_signal_anchor_and_strand (example_collaborators 0) long_offset_calculator
      example_simplex_read = none := by
  decide!

theorem round_half_away_nonneg (x : ℚ) (h : 0 ≤ x) : 0 ≤ round_half_away x := by
  unfold round_half_away
  rw [if_pos h]
  apply Int.floor_nonneg.mpr
  linarith

/-- C28 fails as stated: the anchor `INT_MAX - 10` in a signal of `INT_MAX`
samples, with `samples_per_base = 1.5` and `max_tail_length = 750`, meets every
condition of the claim, but `anchor + kSpread = INT_MAX - 10 + 1125` is not an
`int`: the sum of line 98 overflows and no window is returned. -/
theorem signal_range_overflow_counterexample :
    ((0 : Int) ≤ 2147483637 ∧ (2147483637 : Int) ≤ 2147483647 ∧
      (2147483647 : Int) ≤ INT_MAX ∧ (0 : ℚ) ≤ 3 / 2 ∧
      0 ≤ example_calculator.max_tail_length) ∧
    spread id example_calculator (3 / 2) = 1125 ∧
    ¬ (2147483637 + 1125 : Int) ≤ INT_MAX ∧
    signal_range id example_calculator 2147483637 2147483647 (3 / 2) = none := by
  refine ⟨⟨by decide, by decide, by decide, by norm_num, by decide⟩, ?_, by decide, by decide!⟩
  simp only [spread, round_half_away, example_calculator, id]
  norm_num

/-- C28 (amended): for every anchor with `0 ≤ anchor ≤ total_len`, every
`samples_per_base ≥ 0` and `max_tail_length ≥ 0` for which
`anchor + round(samples_per_base * max_tail_length)` is an `int`, with a
`float` rounding that does not make a non-negative number negative,
`signal_range` returns a window that contains the anchor:
`0 ≤ start ≤ anchor ≤ end ≤ total_len`. -/
theorem signal_range_contains_anchor (to_float : ℚ → ℚ) (calculator : RNAPolyTailCalculator)
    (anchor total_len : Int) (samples_per_base : ℚ)
    (hround : ∀ x : ℚ, 0 ≤ x → 0 ≤ to_float x)
    (h0 : 0 ≤ anchor) (h1 : anchor ≤ total_len) (hs : 0 ≤ samples_per_base)
    (hm : 0 ≤ calculator.max_tail_length)
    (hrep : anchor + spread to_float calculator samples_per_base ≤ INT_MAX) :
    ∃ w : Int × Int,
      signal_range to_float calculator anchor total_len samples_per_base = some w ∧
      0 ≤ w.1 ∧ w.1 ≤ anchor ∧ anchor ≤ w.2 ∧ w.2 ≤ total_len := by
  have hk : 0 ≤ spread to_float calculator samples_per_base := by
    unfold spread
    apply round_half_away_nonneg
    apply hround
    apply mul_nonneg hs
    apply hround
    exact_mod_cast hm
  have hmin : INT_MIN = -2147483648 := rfl
  refine ⟨_, signal_range_some to_float calculator anchor total_len samples_per_base
    ⟨by omega, by omega⟩ ⟨by omega, by omega⟩ ⟨by omega, hrep⟩, ?_, ?_, ?_, ?_⟩ <;>
    simp only <;> omega

theorem signal_range_contains_anchor_witness :
    ∃ w : Int × Int,
      signal_range id example_calculator 100 5000 (3 / 2) = some w ∧
      0 ≤ w.1 ∧ w.1 ≤ 100 ∧ 100 ≤ w.2 ∧ w.2 ≤ 5000 :=
  signal_range_contains_anchor id example_calculator 100 5000 (3 / 2) (fun _ h => h)
    (by decide) (by decide) (by norm_num) (by decide) (by rw [spread_example]; decide)

/-! ## Theorems about the progress written by `update_progress_bar` -/

theorem progress_value_le (to_float : ℚ → ℚ) (t : ProgressTracker) :
    progress_value to_float t ≤ 100 := by
  unfold progress_value
  split_ifs with h
  · exact le_of_lt h
  · exact le_refl _

theorem update_progress_step (to_float : ℚ → ℚ) (t t1 : ProgressTracker)
    (h : update_progress to_float t = some t1) :
    t1.m_num_reads_expected = t.m_num_reads_expected ∧
    t.m_last_progress_written ≤ t1.m_last_progress_written ∧
    (t1.m_last_progress_written = t.m_last_progress_written ∨
      (0 < t1.m_last_progress_written ∧ t1.m_last_progress_written ≤ 100)) := by
  unfold update_progress at h
  split_ifs at h with h1 h2 h3
  · simp only [Option.some.injEq] at h
    subst h
    exact ⟨rfl, le_of_lt h3.2, Or.inr ⟨h3.1, progress_value_le to_float t⟩⟩
  · simp only [Option.some.injEq] at h
    subst h
    exact ⟨rfl, le_refl _, Or.inl rfl⟩
  · simp only [Option.some.injEq] at h
    subst h
    exact ⟨rfl, le_refl _, Or.inl rfl⟩

theorem update_progress_bar_step (to_double to_float : ℚ → ℚ) (tty : Bool) (stats : NamedStats)
    (t t1 : ProgressTracker) (h : update_progress_bar to_double to_float tty stats t = some t1) :
    t1.m_num_reads_expected = t.m_num_reads_expected ∧
    t.m_last_progress_written ≤ t1.m_last_progress_written ∧
    (t1.m_last_progress_written = t.m_last_progress_written ∨
      (0 < t1.m_last_progress_written ∧ t1.m_last_progress_written ≤ 100)) := by
  unfold update_progress_bar at h
  cases hc : update_counters to_double stats t with
  | none => rw [hc] at h; cases h
  | some tc =>
    rw [hc] at h
    have hs := update_counters_spec to_double stats t tc hc
    have he : tc.m_num_reads_expected = t.m_num_reads_expected := hs.2.2.2.2.2.2.2.2.2.2.2.2.2.2.2.2.1
    have hl : tc.m_last_progress_written = t.m_last_progress_written :=
      hs.2.2.2.2.2.2.2.2.2.2.2.2.2.2.2.2.2
    simp only at h
    split_ifs at h with htty
    · simp only [Option.some.injEq] at h
      subst h
      exact ⟨he, le_of_eq hl.symm, Or.inl hl⟩
    · have := update_progress_step to_float tc t1 h
      rw [he, hl] at this
      exact this

theorem update_progress_bars_spec (to_double to_float : ℚ → ℚ) :
    ∀ (calls : List (Bool × NamedStats)) (t t1 : ProgressTracker),
      update_progress_bars to_double to_float calls t = some t1 →
      t1.m_num_reads_expected = t.m_num_reads_expected ∧
      t.m_last_progress_written ≤ t1.m_last_progress_written ∧
      (t1.m_last_progress_written = t.m_last_progress_written ∨
        (0 < t1.m_last_progress_written ∧ t1.m_last_progress_written ≤ 100))
  | [], t, t1, h => by
    simp only [update_progress_bars, Option.some.injEq] at h
    subst h
    exact ⟨rfl, le_refl _, Or.inl rfl⟩
  | call :: rest, t, t1, h => by
    simp only [update_progress_bars] at h
    cases hc : update_progress_bar to_double to_float call.1 call.2 t with
    | none => rw [hc] at h; cases h
    | some tm =>
      rw [hc] at h
      obtain ⟨a1, a2, a3⟩ := update_progress_bar_step to_double to_float _ _ t tm hc
      obtain ⟨b1, b2, b3⟩ := update_progress_bars_spec to_double to_float rest tm t1 h
      refine ⟨b1.trans a1, le_trans a2 b2, ?_⟩
      rcases b3 with b3 | b3
      · rcases a3 with a3 | a3
        · exact Or.inl (b3.trans a3)
        · exact Or.inr (by rw [b3]; exact a3)
      · exact Or.inr b3

theorem update_progress_bar_total (to_double to_float : ℚ → ℚ) (tty : Bool) (stats : NamedStats)
    (t : ProgressTracker)
    (hsum : in_int_range (to_double (fetch_stat stats "HtsWriter.unique_simplex_reads_written"
      + fetch_stat stats "BarcodeDemuxerNode.demuxed_reads_written")))
    (hall : ∀ name, in_int_range (fetch_stat stats name))
    (hint : INT_MIN ≤ truncate (to_double
        (fetch_stat stats "HtsWriter.unique_simplex_reads_written"
          + fetch_stat stats "BarcodeDemuxerNode.demuxed_reads_written"))
        + truncate (fetch_stat stats "ReadFilterNode.simplex_reads_filtered") ∧
      truncate (to_double
        (fetch_stat stats "HtsWriter.unique_simplex_reads_written"
          + fetch_stat stats "BarcodeDemuxerNode.demuxed_reads_written"))
        + truncate (fetch_stat stats "ReadFilterNode.simplex_reads_filtered") ≤ INT_MAX) :
    ∃ t1, update_progress_bar to_double to_float tty stats t = some t1 := by
  obtain ⟨tc, hc⟩ := update_counters_total to_double stats t hsum hall
  have hs := update_counters_spec to_double stats t tc hc
  unfold update_progress_bar
  rw [hc]
  simp only
  split_ifs with htty
  · exact ⟨_, rfl⟩
  · unfold update_progress
    rw [← hs.1, ← hs.2.1] at hint
    split_ifs
    · exact ⟨_, rfl⟩
    · exact ⟨_, rfl⟩
    · exact ⟨_, rfl⟩

/-- C29: across every sequence of calls of `update_progress_bar` on a tracker,
whatever the snapshots hold and whatever the expected read count is, the value
of `m_last_progress_written` never decreases from one point of the sequence to
a later one, and it is either still the value the tracker started with or a
progress that a call wrote, which is positive and at most 100; so it never
exceeds 100 once the tracker starts at or below 100.  A call returns whenever
the values of the snapshot and the sum of reads written and reads filtered
convert to `int`. -/
theorem progress_written_monotone (to_double to_float : ℚ → ℚ)
    (before later : List (Bool × NamedStats)) (t t1 t2 : ProgressTracker)
    (h1 : update_progress_bars to_double to_float before t = some t1)
    (h2 : update_progress_bars to_double to_float later t1 = some t2) :
    t1.m_last_progress_written ≤ t2.m_last_progress_written ∧
    (t2.m_last_progress_written = t.m_last_progress_written ∨
      (0 < t2.m_last_progress_written ∧ t2.m_last_progress_written ≤ 100)) ∧
    (t.m_last_progress_written ≤ 100 →
      t1.m_last_progress_written ≤ 100 ∧ t2.m_last_progress_written ≤ 100) ∧
    (∀ (tty : Bool) (stats : NamedStats),
      in_int_range (to_double (fetch_stat stats "HtsWriter.unique_simplex_reads_written"
        + fetch_stat stats "BarcodeDemuxerNode.demuxed_reads_written")) →
      (∀ name, in_int_range (fetch_stat stats name)) →
      (INT_MIN ≤ truncate (to_double
          (fetch_stat stats "HtsWriter.unique_simplex_reads_written"
            + fetch_stat stats "BarcodeDemuxerNode.demuxed_reads_written"))
          + truncate (fetch_stat stats "ReadFilterNode.simplex_reads_filtered") ∧
        truncate (to_double
          (fetch_stat stats "HtsWriter.unique_simplex_reads_written"
            + fetch_stat stats "BarcodeDemuxerNode.demuxed_reads_written"))
          + truncate (fetch_stat stats "ReadFilterNode.simplex_reads_filtered") ≤ INT_MAX) →
      ∃ t3, update_progress_bar to_double to_float tty stats t2 = some t3) := by
  obtain ⟨_, a2, a3⟩ := update_progress_bars_spec to_double to_float before t t1 h1
  obtain ⟨_, b2, b3⟩ := update_progress_bars_spec to_double to_float later t1 t2 h2
  have c3 : t2.m_last_progress_written = t.m_last_progress_written ∨
      (0 < t2.m_last_progress_written ∧ t2.m_last_progress_written ≤ 100) := by
    rcases b3 with b3 | b3
    · rcases a3 with a3 | a3
      · exact Or.inl (b3.trans a3)
      · exact Or.inr (by rw [b3]; exact a3)
    · exact Or.inr b3
  refine ⟨b2, c3, ?_, ?_⟩
  · intro h100
    constructor
    · rcases a3 with a3 | a3
      · rw [a3]; exact h100
      · exact a3.2
    · rcases c3 with c3 | c3
      · rw [c3]; exact h100
      · exact c3.2
  · intro tty stats hsum hall hint
    exact update_progress_bar_total to_double to_float tty stats t2 hsum hall hint

theorem progress_written_monotone_witness :
    ({ example_tracker with
        m_num_simplex_reads_written := 9, m_num_simplex_reads_filtered := 3,
        m_last_progress_written := 100 } : ProgressTracker).m_last_progress_written
      ≤ ({ example_tracker with
        m_num_simplex_reads_written := 4, m_num_simplex_reads_filtered := 1,
        m_last_progress_written := 100 } : ProgressTracker).m_last_progress_written ∧
    update_progress_bars id id (example_calls.take 2) example_tracker
      = some { example_tracker with
        m_num_simplex_reads_written := 9, m_num_simplex_reads_filtered := 3,
        m_last_progress_written := 100 } ∧
    update_progress_bars id id (example_calls.take 1) example_tracker
      = some { example_tracker with
        m_num_simplex_reads_written := 3, m_num_simplex_reads_filtered := 1,
        m_last_progress_written := 40 } :=
  ⟨(progress_written_monotone id id (example_calls.take 2) (example_calls.drop 2)
      example_tracker _ _ (by decide!) (by decide!)).1, by decide!, by decide!⟩

/-! ## Theorems about `add_all_valid_files` -/

/-- C27 at a failing input: for an input folder `in` that holds the valid files
`a.fastq`, `a.sam` and `a.fastq.bam` and the output folder `out`, the files
`a.fastq` and `a.sam` both map to `out/a.bam` and are disambiguated to
`out/a.fastq.bam` and `out/a.sam.bam`, while `a.fastq.bam` maps alone to
`out/a.fastq.bam` and keeps that name: the processing items of `in/a.fastq` and
of `in/a.fastq.bam` share one output file. -/
theorem shared_output_file :
    (add_all_valid_files (fun _ => true) example_entries example_items).m_working_paths
      = [(['o', 'u', 't', '/', 'a', '.', 'b', 'a', 'm'],
          [['a', '.', 'f', 'a', 's', 't', 'q'], ['a', '.', 's', 'a', 'm']]),
         (['o', 'u', 't', '/', 'a', '.', 'f', 'a', 's', 't', 'q', '.', 'b', 'a', 'm'],
          [['a', '.', 'f', 'a', 's', 't', 'q', '.', 'b', 'a', 'm']])] ∧
    (add_all_valid_files (fun _ => true) example_entries example_items).m_processing_list
      = [{ input := ['i', 'n', '/', 'a', '.', 'f', 'a', 's', 't', 'q']
           output := ['o', 'u', 't', '/', 'a', '.', 'f', 'a', 's', 't', 'q', '.', 'b', 'a', 'm']
           output_mode := OutputMode.SAM },
         { input := ['i', 'n', '/', 'a', '.', 's', 'a', 'm']
           output := ['o', 'u', 't', '/', 'a', '.', 's', 'a', 'm', '.', 'b', 'a', 'm']
           output_mode := OutputMode.SAM },
         { input := ['i', 'n', '/', 'a', '.', 'f', 'a', 's', 't', 'q', '.', 'b', 'a', 'm']
           output := ['o', 'u', 't', '/', 'a', '.', 'f', 'a', 's', 't', 'q', '.', 'b', 'a', 'm']
           output_mode := OutputMode.SAM }] ∧
    ¬ ((add_all_valid_files (fun _ => true) example_entries
        example_items).m_processing_list.map ProcessingItem.output).Nodup := by
  decide

/-! ## Theorems about the chunk size of the model runner -/

/-- C30: for every requested `chunk_size ≥ 0` and stride `> 0`, the chunk size
that the constructor of `ModelRunner` adopts is `chunk_size - chunk_size % stride`,
a multiple of the stride between 0 and the requested `chunk_size`, and the
largest one: every multiple of the stride that does not exceed `chunk_size`
does not exceed it. -/
theorem adjusted_chunk_size_largest_multiple (chunk_size stride : Int)
    (hc : 0 ≤ chunk_size) (hs : 0 < stride) :
    ∃ adopted, adjusted_chunk_size chunk_size stride = some adopted ∧
      adopted = chunk_size - chunk_size % stride ∧
      stride ∣ adopted ∧ 0 ≤ adopted ∧ adopted ≤ chunk_size ∧
      ∀ m : Int, stride ∣ m → m ≤ chunk_size → m ≤ adopted := by
  have hmod : Int.tmod chunk_size stride = chunk_size % stride :=
    Int.tmod_eq_emod hc (le_of_lt hs)
  have h0 : 0 ≤ chunk_size % stride := Int.emod_nonneg _ (by omega)
  have h1 : chunk_size % stride < stride := Int.emod_lt_of_pos _ hs
  have hd : stride * (chunk_size / stride) + chunk_size % stride = chunk_size :=
    Int.ediv_add_emod chunk_size stride
  refine ⟨chunk_size - chunk_size % stride, ?_, rfl, ?_, ?_, by omega, ?_⟩
  · unfold adjusted_chunk_size
    rw [if_neg (by omega), hmod]
  · exact ⟨chunk_size / stride, by omega⟩
  · have : 0 ≤ chunk_size / stride := Int.ediv_nonneg hc (le_of_lt hs)
    have := mul_nonneg (le_of_lt hs) this
    omega
  · rintro m ⟨k, rfl⟩ hle
    have hk : k ≤ chunk_size / stride := by
      rw [Int.le_ediv_iff_mul_le hs]
      rw [mul_comm]
      exact hle
    have := mul_le_mul_of_nonneg_left hk (le_of_lt hs)
    omega

theorem adjusted_chunk_size_largest_multiple_witness :
    ∃ adopted, adjusted_chunk_size 10000 6 = some adopted ∧
      adopted = 10000 - 10000 % 6 ∧
      (6 : Int) ∣ adopted ∧ 0 ≤ adopted ∧ adopted ≤ 10000 ∧
      ∀ m : Int, 6 ∣ m → m ≤ 10000 → m ≤ adopted :=
  adjusted_chunk_size_largest_multiple 10000 6 (by decide) (by decide)

end dorado
